import Mathlib

/-!
Shallow embedding of the day/task/backlog lifecycle engine of `src/main.py`
(a personal daily-planning assistant).  Python dicts holding task, backlog-item
and day records become Lean structures; optional dict keys become `Option`
fields; the injectable clock (`now_iso`) becomes an explicit `now : String`
argument; the per-user JSON record becomes the `UserState` structure, with the
`days` dict embedded as an association list in insertion order.  Stateful
Python functions that mutate the record in place become pure functions from
`UserState` to `UserState`.
-/

namespace Planner

/-- Embedding of a task dict (see `create_default_plan` / `add_task_to_day` in
`src/main.py`): integer id, text, status string ("todo" or "done"), creation
timestamp, optional completion timestamp, and the optional carry-over
provenance keys `carried_from` and `carry_count` (absent keys are `none`). -/
structure Task where
  id : Nat
  text : String
  status : String
  created_at : String
  done_at : Option String := none
  carried_from : Option String := none
  carry_count : Option Nat := none
deriving Repr, DecidableEq

/-- Embedding of a backlog-item dict (built in `build_evening_report` and in
the direct add-to-backlog handler of `src/main.py`).  The direct-add handler
also stores dead `status` and `done_at` keys that no code ever reads; they are
omitted here. -/
structure BacklogItem where
  id : Nat
  text : String
  created_at : String
  source_day : Option String := none
  last_seen_at : String
  carry_count : Option Nat := none
deriving Repr, DecidableEq

/-- Embedding of a day dict (`get_day` in `src/main.py`): ordered task list,
closed flag, creation timestamp and optional close timestamp. -/
structure Day where
  tasks : List Task
  closed : Bool
  created_at : String
  closed_at : Option String := none
deriving Repr, DecidableEq

/-- Embedding of the per-user JSON record (`load_user_state`): the `days` dict
as an association list from ISO date string to `Day` (insertion order), the
backlog list, and the habit configuration and log read by the close report.
The `user_id`, `created_at` and notification fields play no role in any claim
and are omitted. -/
structure UserState where
  days : List (String × Day)
  backlog : List BacklogItem
  habits_config : List (String × String)
  habits_log : List (String × List (String × Bool))
deriving Repr, DecidableEq

/-- The `DEFAULT_TASKS` constant of `src/main.py`. -/
def DEFAULT_TASKS : List String :=
  ["Python: 30 мин теория (Notion)",
   "Python: 30 мин практика (PyCharm)",
   "5 мин итог: что понял/что повторить"]

/-- The `HABITS_DEFAULT_CONFIG` constant of `src/main.py`, as (key, title). -/
def HABITS_DEFAULT_CONFIG : List (String × String) :=
  [("study", "Учёба"), ("music", "Музыка"), ("sport", "Спорт"),
   ("reading", "Чтение"), ("vitamin_d", "Витамин D"),
   ("breathing", "Дыхание"), ("automation", "Автоматизация")]

/-- Embedding of the idiom `int(x.get("carry_count", 0) or 0)`: a missing
carry count reads as 0. -/
def getCarry (c : Option Nat) : Nat := c.getD 0

/-- Lookup in the `days` dict: first entry with the given date key. -/
def find_day : List (String × Day) → String → Option Day
  | [], _ => none
  | (k, v) :: rest, d => if k = d then some v else find_day rest d

/-- Assignment `days[d] = obj` on the embedded dict: replace the entry with
key `d`, or append a new entry (dict insertion order). -/
def set_day : List (String × Day) → String → Day → List (String × Day)
  | [], d, obj => [(d, obj)]
  | (k, v) :: rest, d, obj =>
    if k = d then (d, obj) :: rest else (k, v) :: set_day rest d obj

/-- The fresh day dict created by `get_day` for an unseen date. -/
def fresh_day (now : String) : Day :=
  { tasks := [], closed := false, created_at := now, closed_at := none }

/-- Embedding of `get_day`: return the stored day, lazily creating a fresh
open day for a missing date (the returned state carries the insertion). -/
def get_day (s : UserState) (d : String) (now : String) : UserState × Day :=
  match find_day s.days d with
  | some obj => (s, obj)
  | none =>
    let obj := fresh_day now
    ({ s with days := set_day s.days d obj }, obj)

/-- The task records built by `create_default_plan`: default texts with ids
enumerated from `i`, status todo, no carry keys. -/
def default_tasks_from (now : String) (i : Nat) : List String → List Task
  | [] => []
  | text :: rest =>
    { id := i, text := text, status := "todo", created_at := now } ::
      default_tasks_from now (i + 1) rest

/-- Embedding of `create_default_plan`: seed an empty day with the default
plan; a day that already has tasks is returned unchanged. -/
def create_default_plan (now : String) (day_obj : Day) : Day :=
  if day_obj.tasks.isEmpty then
    { day_obj with tasks := default_tasks_from now 1 DEFAULT_TASKS }
  else day_obj

/-- Embedding of `normalize_task_ids` (generalised over the starting id):
walk the list in order and assign ids `i, i+1, ...`. -/
def normalize_from (i : Nat) : List Task → List Task
  | [] => []
  | t :: rest => { t with id := i } :: normalize_from (i + 1) rest

/-- Embedding of `normalize_task_ids`: renumber ids densely `1..N`. -/
def normalize_task_ids (tasks : List Task) : List Task := normalize_from 1 tasks

/-- Embedding of `normalize_task_ids_backlog`, generalised over the start. -/
def normalize_backlog_from (i : Nat) : List BacklogItem → List BacklogItem
  | [] => []
  | b :: rest => { b with id := i } :: normalize_backlog_from (i + 1) rest

/-- Embedding of `normalize_task_ids_backlog`: renumber backlog ids `1..N`. -/
def normalize_task_ids_backlog (backlog : List BacklogItem) : List BacklogItem :=
  normalize_backlog_from 1 backlog

/-- The scan of `find_task`: first task with the given id. -/
def find_task_in : List Task → Nat → Option Task
  | [], _ => none
  | t :: rest, task_id =>
    if t.id = task_id then some t else find_task_in rest task_id

/-- Embedding of `find_task`: first task with the given id. -/
def find_task (day_obj : Day) (task_id : Nat) : Option Task :=
  find_task_in day_obj.tasks task_id

/-- Embedding of the loop body of `ensure_min_tasks`: while the task count is
below `min_count` and unused default texts remain, append the next one with
id `len + 1`. -/
def ensure_min_loop (now : String) (min_count : Nat) (tasks : List Task) :
    List String → List Task
  | [] => tasks
  | text :: rest =>
    if tasks.length < min_count then
      ensure_min_loop now min_count
        (tasks ++ [{ id := tasks.length + 1, text := text, status := "todo",
                     created_at := now }]) rest
    else tasks

/-- Embedding of `ensure_min_tasks`: top the day up with default texts not
already present (by exact text match), then renumber. -/
def ensure_min_tasks (now : String) (min_count : Nat) (day_obj : Day) : Day :=
  let tasks := day_obj.tasks
  let existing_texts := tasks.map (fun t => t.text)
  let add_texts := DEFAULT_TASKS.filter (fun text => !(existing_texts.contains text))
  { day_obj with
    tasks := normalize_task_ids (ensure_min_loop now min_count tasks add_texts) }

/-- The day update performed by `add_task_to_day`: append a fresh todo task
with id `len + 1` and renumber. -/
def added_day (now text : String) (day_obj : Day) : Day :=
  { day_obj with tasks := normalize_task_ids (day_obj.tasks ++
      [{ id := day_obj.tasks.length + 1, text := text, status := "todo",
         created_at := now }]) }

/-- Embedding of `add_task_to_day`: lazily obtain the day, append a fresh todo
task with id `len + 1`, renumber, store the day back.  Returns the updated
state and the updated day (as the Python function returns `day_obj`). -/
def add_task_to_day (now : String) (s : UserState) (d : String) (text : String) :
    UserState × Day :=
  let p := get_day s d now
  let day2 := added_day now text p.2
  ({ p.1 with days := set_day p.1.days d day2 }, day2)

/-- Error result of `apply_done` in `src/main.py` (the function returns
`(False, message)`; the three distinct messages become three constructors). -/
inductive DoneError where
  | dayClosed
  | taskNotFound
  | alreadyDone
deriving Repr, DecidableEq

/-- The in-place mutation `task["status"] = "done"; task["done_at"] = now` of
`apply_done`, applied to the first task with the given id. -/
def set_done (now : String) (task_id : Nat) : List Task → List Task
  | [] => []
  | t :: rest =>
    if t.id = task_id then
      { t with status := "done", done_at := some now } :: rest
    else t :: set_done now task_id rest

/-- Embedding of `apply_done`: reject a closed day, an unknown task id, and a
task already done; otherwise mark the found task done with timestamp `now`. -/
def apply_done (now : String) (day_obj : Day) (task_id : Nat) : Except DoneError Day :=
  if day_obj.closed then Except.error DoneError.dayClosed
  else
    match find_task day_obj task_id with
    | none => Except.error DoneError.taskNotFound
    | some t =>
      if t.status = "done" then Except.error DoneError.alreadyDone
      else Except.ok { day_obj with tasks := set_done now task_id day_obj.tasks }

/-- Error result of the delete-tasks handler in `handle_text_input`. -/
inductive RemoveError where
  | dayClosed
  | noMatches
deriving Repr, DecidableEq

/-- Embedding of the delete-tasks branch of `handle_text_input`: reject a
closed day; compute the removed tasks; reject when none matched; otherwise
keep the non-matching tasks and renumber.  Returns the updated day and the
removed tasks. -/
def remove_tasks (day_obj : Day) (ids : List Nat) : Except RemoveError (Day × List Task) :=
  if day_obj.closed then Except.error RemoveError.dayClosed
  else
    let tasks := day_obj.tasks
    let removed := tasks.filter (fun t => ids.contains t.id)
    if removed.isEmpty then Except.error RemoveError.noMatches
    else
      Except.ok
        ({ day_obj with tasks := normalize_task_ids (tasks.filter (fun t => !(ids.contains t.id))) },
         removed)

/-- Embedding of `next_backlog_id`: one more than the maximum existing id
(0 when the backlog is empty). -/
def next_backlog_id (backlog : List BacklogItem) : Nat :=
  (backlog.foldl (fun m item => max m item.id) 0) + 1

/-- Embedding of `find_backlog_by_text`: first item with the given text. -/
def find_backlog_by_text : List BacklogItem → String → Option BacklogItem
  | [], _ => none
  | b :: rest, text => if b.text = text then some b else find_backlog_by_text rest text

/-- Embedding of `find_backlog_item`: first item with the given id. -/
def find_backlog_item : List BacklogItem → Nat → Option BacklogItem
  | [], _ => none
  | b :: rest, item_id =>
    if b.id = item_id then some b else find_backlog_item rest item_id

/-- Embedding of `backlog.remove(item)`: drop the first occurrence. -/
def remove_first : List BacklogItem → BacklogItem → List BacklogItem
  | [], _ => []
  | b :: rest, item => if b = item then rest else b :: remove_first rest item

/-- The carry-forward task dict built in `build_evening_report` for a not-done
task below the demotion threshold (placeholder id 0, renumbered later). -/
def mk_carry_task (now day : String) (carry_count : Nat) (t : Task) : Task :=
  { id := 0, text := t.text, status := "todo", created_at := now,
    done_at := none, carried_from := some day, carry_count := some carry_count }

/-- The update applied to an existing backlog item by the merge branch of the
demotion (lines 954–955): carry count becomes `max(old, new)` and the
last-seen timestamp is refreshed. -/
def merged_item (now : String) (carry_count : Nat) (old : BacklogItem) : BacklogItem :=
  { old with carry_count := some (max (getCarry old.carry_count) carry_count),
             last_seen_at := now }

/-- The merge branch of the demotion in `build_evening_report`: update the
first backlog item with the given text via `merged_item`. -/
def merge_backlog_text (now : String) (text : String) (carry_count : Nat) :
    List BacklogItem → List BacklogItem
  | [] => []
  | b :: rest =>
    if b.text = text then merged_item now carry_count b :: rest
    else b :: merge_backlog_text now text carry_count rest

/-- One demotion of a not-done task into the backlog, as performed per task in
the loop of `build_evening_report` (lines 948–968 of `src/main.py`).  The
Python code tests membership in `existing_backlog_texts`, a set kept equal to
the set of texts of the evolving backlog list, so the test is embedded as a
scan of the backlog itself; when the text is present `find_backlog_by_text`
necessarily succeeds and the merge branch runs, otherwise a fresh item with id
`next_backlog_id` is appended. -/
def demote_step (now day : String) (backlog : List BacklogItem)
    (text : String) (carry_count : Nat) : List BacklogItem :=
  if backlog.any (fun b => b.text == text) then
    merge_backlog_text now text carry_count backlog
  else
    backlog ++ [{ id := next_backlog_id backlog, text := text, created_at := now,
                  source_day := some day, last_seen_at := now,
                  carry_count := some carry_count }]

/-- The incremented carry count `int(t.get("carry_count", 0) or 0) + 1`
computed for each not-done task in the close loop. -/
def new_count (t : Task) : Nat := getCarry t.carry_count + 1

/-- The per-task loop of `build_evening_report` over the not-done tasks: each
task's incremented carry count decides demotion (threshold 3) versus carry
forward; the backlog and the carry list are threaded through. -/
def close_loop (now day : String) :
    List Task → List BacklogItem → List Task → List BacklogItem × List Task
  | [], backlog, carry => (backlog, carry)
  | t :: rest, backlog, carry =>
    let c := new_count t
    if 3 ≤ c then
      close_loop now day rest (demote_step now day backlog t.text c) carry
    else
      close_loop now day rest backlog (carry ++ [mk_carry_task now day c t])

/-- The task list the close report works on (lines 924–927): an empty today
is seeded with the default plan first. -/
def seeded_tasks (now : String) (day_obj : Day) : List Task :=
  if day_obj.tasks.isEmpty then default_tasks_from now 1 DEFAULT_TASKS
  else day_obj.tasks

/-- The partition filter `[t for t in tasks if t["status"] != "done"]`. -/
def todo_of (tasks : List Task) : List Task :=
  tasks.filter (fun t => !(t.status == "done"))

/-- The step of `build_evening_report` that forces a closed tomorrow back to
open (lines 941–942; only the flag is reset, `closed_at` is kept). -/
def force_open (d : Day) : Day :=
  if d.closed then { d with closed := false } else d

/-- The merge of the carry-forward tasks into tomorrow (lines 985–994):
prepend the carried tasks whose text is not already in tomorrow's pre-existing
list, renumber, then top up to a minimum of 3 tasks. -/
def merge_tomorrow (now : String) (carry : List Task) (tom : Day) : Day :=
  let existing_texts := tom.tasks.map (fun t => t.text)
  let new_tasks := carry.filter (fun t => !(existing_texts.contains t.text))
  ensure_min_tasks now 3 { tom with tasks := normalize_task_ids (new_tasks ++ tom.tasks) }

/-- The closed version of today written by lines 934–936: tasks seeded when
empty, `closed = True`, `closed_at = now`. -/
def closed_day (now : String) (day_obj : Day) : Day :=
  { day_obj with tasks := seeded_tasks now day_obj, closed := true, closed_at := some now }

/-- Embedding of the state mutation of `build_evening_report`: seed an empty
today with the default plan, close today, lazily obtain tomorrow and force it
open, run the carry/demote loop over the not-done tasks, renumber the backlog,
merge the carried tasks into tomorrow, and seed the default habit
configuration when absent (`get_habits_config` on an empty config).  The
textual report is not modelled; `day_obj` is the stored day for `day`, exactly
as passed by the callers (`cmd_evening` and the `evening` callback).  `tmr` is
the successor date of `day` computed by `tomorrow_str`. -/
def build_evening_report (now day tmr : String) (s : UserState) (day_obj : Day) :
    UserState :=
  let todo_tasks := todo_of (seeded_tasks now day_obj)
  let backlog := s.backlog
  let s1 : UserState := { s with days := set_day s.days day (closed_day now day_obj) }
  let p := get_day s1 tmr now
  let tom1 := force_open p.2
  let q := close_loop now day todo_tasks backlog []
  let s3 : UserState := { p.1 with backlog := normalize_task_ids_backlog q.1 }
  let tom3 := merge_tomorrow now q.2 tom1
  let s4 : UserState := { s3 with days := set_day s3.days tmr tom3 }
  if s4.habits_config.isEmpty then { s4 with habits_config := HABITS_DEFAULT_CONFIG }
  else s4

/-- Embedding of the close-day command (`cmd_evening`, and identically the
`evening` callback): load the record, lazily obtain today, reject when today
is already closed (replying without saving, so the store keeps the old
record), otherwise run `build_evening_report` and save.  The result is the
store content after the command paired with whether the close was accepted. -/
def cmd_evening (now day tmr : String) (stored : UserState) : UserState × Bool :=
  let p := get_day stored day now
  if p.2.closed then (stored, false)
  else (build_evening_report now day tmr p.1 p.2, true)

/-- Embedding of the `day:reopen` / `day:reopen_today` callback: set
`closed = False`, pop `closed_at`, seed the default plan only when the task
list is empty, and save. -/
def reopen_today_callback (now day : String) (s : UserState) : UserState :=
  let p := get_day s day now
  let d1 := { p.2 with closed := false, closed_at := none }
  let d2 := if d1.tasks.isEmpty then create_default_plan now d1 else d1
  { p.1 with days := set_day p.1.days day d2 }

/-- Embedding of the `add:reopen_today` branch of `handle_text_input`:
replace today with a brand-new empty open day, seed the default plan, then
append the entered task text. -/
def reopen_today_add (now day text : String) (s : UserState) : UserState × Day :=
  let d0 := fresh_day now
  let s1 : UserState := { s with days := set_day s.days day d0 }
  let d1 := create_default_plan now d0
  let s2 : UserState := { s1 with days := set_day s1.days day d1 }
  add_task_to_day now s2 day text

/-- Embedding of the `add:backlog` branch of `handle_text_input`: append a
new backlog item with id `len + 1`, no source day and carry count 0, then
renumber the backlog.  No duplicate-text check is performed. -/
def add_backlog_direct (now text : String) (s : UserState) : UserState :=
  let backlog := s.backlog
  let backlog1 := backlog ++
    [{ id := backlog.length + 1, text := text, created_at := now,
       source_day := none, last_seen_at := now, carry_count := some 0 }]
  { s with backlog := normalize_task_ids_backlog backlog1 }

/-- Error results of the backlog triage callbacks. -/
inductive TriageError where
  | itemNotFound
  | dayClosed
deriving Repr, DecidableEq

/-- Embedding of the `backlog:return` callback (return a backlog item to
today): reject an unknown item id or a closed today; append a todo task
carrying the item's creation timestamp, source day and carry count unless
today already has a task with the identical text; remove the item from the
backlog and renumber. -/
def backlog_return (now day : String) (item_id : Nat) (s : UserState) :
    Except TriageError UserState :=
  match find_backlog_item s.backlog item_id with
  | none => Except.error TriageError.itemNotFound
  | some item =>
    let p := get_day s day now
    if p.2.closed then Except.error TriageError.dayClosed
    else
      let day_obj := p.2
      let tasks := day_obj.tasks
      let task_texts := tasks.map (fun t => t.text)
      let day2 :=
        if task_texts.contains item.text then day_obj
        else
          { day_obj with tasks := normalize_task_ids (tasks ++
              [{ id := tasks.length + 1, text := item.text, status := "todo",
                 created_at := item.created_at, done_at := none,
                 carried_from := item.source_day,
                 carry_count := some (getCarry item.carry_count) }]) }
      let backlog2 := normalize_task_ids_backlog (remove_first s.backlog item)
      Except.ok { p.1 with days := set_day p.1.days day day2, backlog := backlog2 }

/-- Embedding of the `triage_to:today` / `triage_to:tomorrow` callback (the
`move:` and `pick_to:` callbacks behave the same way): reject an unknown item
or, for today only, a closed day; then append the item's text to the day via
`add_task_to_day` unconditionally — there is no duplicate-text check and no
provenance carry-over — and remove the item from the backlog, renumbering. -/
def triage_move_to_day (now day : String) (is_today : Bool) (item_id : Nat)
    (s : UserState) : Except TriageError UserState :=
  match find_backlog_item s.backlog item_id with
  | none => Except.error TriageError.itemNotFound
  | some item =>
    let p := get_day s day now
    if is_today && p.2.closed then Except.error TriageError.dayClosed
    else
      let r := add_task_to_day now p.1 day item.text
      let backlog2 := normalize_task_ids_backlog (remove_first r.1.backlog item)
      Except.ok { r.1 with backlog := backlog2 }

/-- The projection of a task to everything except its id; renumbering keeps
this projection pointwise. -/
def task_fields (t : Task) :
    String × String × String × Option String × Option String × Option Nat :=
  (t.text, t.status, t.created_at, t.done_at, t.carried_from, t.carry_count)

theorem normalize_from_length (i : Nat) (xs : List Task) :
    (normalize_from i xs).length = xs.length := by
  induction xs generalizing i with
  | nil => rfl
  | cons t rest ih => simp [normalize_from, ih]

theorem normalize_from_map_id (i : Nat) (xs : List Task) :
    (normalize_from i xs).map (fun t => t.id) = List.range' i xs.length := by
  induction xs generalizing i with
  | nil => rfl
  | cons t rest ih => simp [normalize_from, ih, List.range'_succ]

theorem normalize_from_map_fields (i : Nat) (xs : List Task) :
    (normalize_from i xs).map task_fields = xs.map task_fields := by
  induction xs generalizing i with
  | nil => rfl
  | cons t rest ih => simp [normalize_from, ih, task_fields]

theorem normalize_from_map_text (i : Nat) (xs : List Task) :
    (normalize_from i xs).map (fun t => t.text) = xs.map (fun t => t.text) := by
  have h := congrArg (List.map (fun x : String × String × String × Option String × Option String × Option Nat => x.1)) (normalize_from_map_fields i xs)
  simpa [Function.comp, task_fields] using h

theorem normalize_task_ids_map_id (xs : List Task) :
    (normalize_task_ids xs).map (fun t => t.id) = List.range' 1 xs.length :=
  normalize_from_map_id 1 xs

theorem normalize_task_ids_length (xs : List Task) :
    (normalize_task_ids xs).length = xs.length :=
  normalize_from_length 1 xs

theorem normalize_task_ids_map_text (xs : List Task) :
    (normalize_task_ids xs).map (fun t => t.text) = xs.map (fun t => t.text) :=
  normalize_from_map_text 1 xs

theorem normalize_backlog_from_length (i : Nat) (xs : List BacklogItem) :
    (normalize_backlog_from i xs).length = xs.length := by
  induction xs generalizing i with
  | nil => rfl
  | cons b rest ih => simp [normalize_backlog_from, ih]

theorem normalize_backlog_from_map_id (i : Nat) (xs : List BacklogItem) :
    (normalize_backlog_from i xs).map (fun b => b.id) = List.range' i xs.length := by
  induction xs generalizing i with
  | nil => rfl
  | cons b rest ih => simp [normalize_backlog_from, ih, List.range'_succ]

theorem normalize_backlog_from_map_text (i : Nat) (xs : List BacklogItem) :
    (normalize_backlog_from i xs).map (fun b => b.text) = xs.map (fun b => b.text) := by
  induction xs generalizing i with
  | nil => rfl
  | cons b rest ih => simp [normalize_backlog_from, ih]

theorem mem_normalize_backlog_from (i : Nat) (xs : List BacklogItem)
    (b : BacklogItem) :
    b ∈ xs → ∃ j, { b with id := j } ∈ normalize_backlog_from i xs := by
  induction xs generalizing i with
  | nil => intro h; cases h
  | cons x rest ih =>
    intro hb
    rcases List.mem_cons.mp hb with hb | hb
    · subst hb
      exact ⟨i, by simp [normalize_backlog_from]⟩
    · obtain ⟨j, hj⟩ := ih (i + 1) hb
      exact ⟨j, by simp [normalize_backlog_from, hj]⟩

theorem find_day_set_day_self (ds : List (String × Day)) (d : String) (obj : Day) :
    find_day (set_day ds d obj) d = some obj := by
  induction ds with
  | nil => simp [set_day, find_day]
  | cons kv rest ih =>
    by_cases h : kv.1 = d
    · simp [set_day, find_day, h]
    · simp [set_day, find_day, h, ih]

theorem find_day_set_day_ne (ds : List (String × Day)) (d e : String) (obj : Day)
    (hne : d ≠ e) : find_day (set_day ds d obj) e = find_day ds e := by
  induction ds with
  | nil => simp [set_day, find_day, hne]
  | cons kv rest ih =>
    by_cases h : kv.1 = d
    · simp [set_day, find_day, h, hne]
    · simp [set_day, find_day, h, ih]

theorem get_day_fst_backlog (s : UserState) (d now : String) :
    (get_day s d now).1.backlog = s.backlog := by
  unfold get_day
  cases find_day s.days d <;> simp

theorem get_day_fst_habits (s : UserState) (d now : String) :
    (get_day s d now).1.habits_config = s.habits_config := by
  unfold get_day
  cases find_day s.days d <;> simp

theorem get_day_snd (s : UserState) (d now : String) :
    (get_day s d now).2 = (find_day s.days d).getD (fresh_day now) := by
  unfold get_day
  cases find_day s.days d <;> simp

theorem get_day_fst_find_ne (s : UserState) (d e now : String) (hne : d ≠ e) :
    find_day (get_day s d now).1.days e = find_day s.days e := by
  unfold get_day
  cases h : find_day s.days d <;> simp [find_day_set_day_ne _ _ _ _ hne]

theorem build_evening_report_backlog (now day tmr : String) (s : UserState)
    (day_obj : Day) :
    (build_evening_report now day tmr s day_obj).backlog =
      normalize_task_ids_backlog
        ((close_loop now day (todo_of (seeded_tasks now day_obj)) s.backlog []).1) := by
  unfold build_evening_report
  simp [apply_ite UserState.backlog]

theorem build_evening_report_find_tmr (now day tmr : String) (s : UserState)
    (day_obj : Day) (hne : day ≠ tmr) :
    find_day (build_evening_report now day tmr s day_obj).days tmr =
      some (merge_tomorrow now
        ((close_loop now day (todo_of (seeded_tasks now day_obj)) s.backlog []).2)
        (force_open ((find_day s.days tmr).getD (fresh_day now)))) := by
  unfold build_evening_report
  have hsnd :
      (get_day { s with days := set_day s.days day (closed_day now day_obj) } tmr now).2 =
        (find_day s.days tmr).getD (fresh_day now) := by
    rw [get_day_snd]
    simp [find_day_set_day_ne _ _ _ _ hne]
  simp [apply_ite UserState.days, find_day_set_day_self, hsnd]

theorem build_evening_report_find_day (now day tmr : String) (s : UserState)
    (day_obj : Day) (hne : day ≠ tmr) :
    find_day (build_evening_report now day tmr s day_obj).days day =
      some (closed_day now day_obj) := by
  unfold build_evening_report
  have hfind :
      find_day (get_day { s with days := set_day s.days day (closed_day now day_obj) } tmr now).1.days day =
        some (closed_day now day_obj) := by
    rw [get_day_fst_find_ne _ _ _ _ (Ne.symm hne)]
    exact find_day_set_day_self _ _ _
  simp [apply_ite UserState.days, find_day_set_day_ne _ _ _ _ (Ne.symm hne), hfind]

theorem ensure_min_loop_spec (now : String) (m : Nat) (adds : List String) :
    ∀ tasks : List Task, ∃ added : List Task,
      ensure_min_loop now m tasks adds = tasks ++ added ∧
      ∃ k, added.map (fun t => t.text) = adds.take k ∧
           (m ≤ (tasks ++ added).length ∨ k = adds.length) := by
  induction adds with
  | nil =>
    intro tasks
    exact ⟨[], by simp [ensure_min_loop], 0, by simp, Or.inr rfl⟩
  | cons a rest ih =>
    intro tasks
    by_cases h : tasks.length < m
    · obtain ⟨added, heq, k, htext, hdisj⟩ :=
        ih (tasks ++ [{ id := tasks.length + 1, text := a, status := "todo",
                        created_at := now }])
      refine ⟨{ id := tasks.length + 1, text := a, status := "todo",
                created_at := now } :: added, ?_, k + 1, ?_, ?_⟩
      · simp [ensure_min_loop, h, heq]
      · simp [htext]
      · rcases hdisj with hlen | hk
        · left; simpa using hlen
        · right; simp [hk]
    · refine ⟨[], ?_, 0, by simp, Or.inl ?_⟩
      · simp [ensure_min_loop, h]
      · simpa using Nat.le_of_not_lt h

theorem close_loop_carry (now day : String) (todos : List Task) :
    ∀ (b : List BacklogItem) (c : List Task),
      (close_loop now day todos b c).2 =
        c ++ (todos.filter (fun t => !(decide (3 ≤ new_count t)))).map
              (fun t => mk_carry_task now day (new_count t) t) := by
  induction todos with
  | nil => intro b c; simp [close_loop]
  | cons t rest ih =>
    intro b c
    by_cases h : 3 ≤ new_count t
    · simp [close_loop, h, ih]
    · simp [close_loop, h, ih]

theorem close_loop_backlog (now day : String) (todos : List Task) :
    ∀ (b : List BacklogItem) (c : List Task),
      (close_loop now day todos b c).1 =
        (todos.filter (fun t => decide (3 ≤ new_count t))).foldl
          (fun bb t => demote_step now day bb t.text (new_count t)) b := by
  induction todos with
  | nil => intro b c; simp [close_loop]
  | cons t rest ih =>
    intro b c
    by_cases h : 3 ≤ new_count t
    · simp [close_loop, h, ih]
    · simp [close_loop, h, ih]

theorem merge_backlog_text_map_text (now x : String) (c : Nat)
    (l : List BacklogItem) :
    (merge_backlog_text now x c l).map (fun b => b.text) =
      l.map (fun b => b.text) := by
  induction l with
  | nil => rfl
  | cons b rest ih =>
    by_cases h : b.text = x
    · simp [merge_backlog_text, merged_item, h]
    · simp [merge_backlog_text, h, ih]

theorem mem_merge_backlog_text_of_ne (now x : String) (c : Nat)
    (item : BacklogItem) (hne : item.text ≠ x) (l : List BacklogItem) :
    item ∈ l → item ∈ merge_backlog_text now x c l := by
  induction l with
  | nil => intro h; cases h
  | cons b rest ih =>
    intro hmem
    rcases List.mem_cons.mp hmem with rfl | hm
    · have h : ¬ (item.text = x) := hne
      simp [merge_backlog_text, h]
    · by_cases h : b.text = x
      · simp [merge_backlog_text, h, hm]
      · simp [merge_backlog_text, h, ih hm]

theorem texts_demote_step_superset (now day x : String) (c : Nat)
    (b : List BacklogItem) (y : String)
    (hy : y ∈ b.map (fun i => i.text)) :
    y ∈ (demote_step now day b x c).map (fun i => i.text) := by
  unfold demote_step
  by_cases h : b.any (fun i => i.text == x) = true
  · rw [if_pos h, merge_backlog_text_map_text]; exact hy
  · rw [if_neg h]; simp only [List.map_append, List.mem_append]; exact Or.inl hy

theorem text_mem_demote_step (now day x : String) (c : Nat)
    (b : List BacklogItem) :
    x ∈ (demote_step now day b x c).map (fun i => i.text) := by
  unfold demote_step
  by_cases h : b.any (fun i => i.text == x) = true
  · rw [if_pos h, merge_backlog_text_map_text]
    obtain ⟨i, hi, hix⟩ := List.any_eq_true.mp h
    have hx : i.text = x := by simpa using hix
    exact hx ▸ List.mem_map_of_mem _ hi
  · rw [if_neg h]; simp

theorem texts_demote_step_subset (now day x : String) (c : Nat)
    (b : List BacklogItem) (y : String) :
    y ∈ (demote_step now day b x c).map (fun i => i.text) →
      y = x ∨ y ∈ b.map (fun i => i.text) := by
  unfold demote_step
  by_cases h : b.any (fun i => i.text == x) = true
  · rw [if_pos h, merge_backlog_text_map_text]; exact Or.inr
  · rw [if_neg h]
    intro hy
    rw [List.map_append, List.mem_append] at hy
    rcases hy with hy1 | hy2
    · exact Or.inr hy1
    · left; simpa using hy2

theorem mem_demote_step_of_ne (now day x : String) (c : Nat)
    (b : List BacklogItem) (item : BacklogItem) (hne : item.text ≠ x)
    (hmem : item ∈ b) : item ∈ demote_step now day b x c := by
  unfold demote_step
  by_cases h : b.any (fun i => i.text == x) = true
  · rw [if_pos h]; exact mem_merge_backlog_text_of_ne now x c item hne b hmem
  · rw [if_neg h]; exact List.mem_append_left _ hmem

theorem demote_step_fresh (now day x : String) (c : Nat) (b : List BacklogItem)
    (h : ∀ i ∈ b, i.text ≠ x) :
    demote_step now day b x c =
      b ++ [{ id := next_backlog_id b, text := x, created_at := now,
              source_day := some day, last_seen_at := now, carry_count := some c }] := by
  unfold demote_step
  have hb : b.any (fun i => i.text == x) = false := by
    simp only [List.any_eq_false]
    intro i hi
    simpa using h i hi
  rw [if_neg (by simp [hb])]

theorem texts_demote_step_nodup (now day x : String) (c : Nat)
    (b : List BacklogItem) (h : (b.map (fun i => i.text)).Nodup) :
    ((demote_step now day b x c).map (fun i => i.text)).Nodup := by
  unfold demote_step
  by_cases hb : b.any (fun i => i.text == x) = true
  · rw [if_pos hb, merge_backlog_text_map_text]; exact h
  · rw [if_neg hb]
    have hx : x ∉ b.map (fun i => i.text) := by
      intro hmem
      obtain ⟨i, hi, hix⟩ := List.mem_map.mp hmem
      have : b.any (fun i => i.text == x) = true :=
        List.any_eq_true.mpr ⟨i, hi, by simp [hix]⟩
      exact hb this
    rw [List.map_append]
    simp only [List.map_cons, List.map_nil]
    refine List.Nodup.append h (List.nodup_singleton x) ?_
    intro a ha hax
    have hax2 : a = x := by simpa using hax
    exact hx (hax2 ▸ ha)

theorem fold_demote_texts_superset (now day : String) (l : List Task) :
    ∀ (b : List BacklogItem) (y : String), y ∈ b.map (fun i => i.text) →
      y ∈ ((l.foldl (fun bb t => demote_step now day bb t.text (new_count t)) b).map
            (fun i => i.text)) := by
  induction l with
  | nil => intro b y hy; simpa using hy
  | cons t rest ih =>
    intro b y hy
    exact ih _ y (texts_demote_step_superset now day t.text (new_count t) b y hy)

theorem fold_demote_no_new_text (now day : String) (l : List Task) :
    ∀ (b : List BacklogItem) (y : String), y ∉ b.map (fun i => i.text) →
      (∀ t ∈ l, t.text ≠ y) →
      y ∉ ((l.foldl (fun bb t => demote_step now day bb t.text (new_count t)) b).map
            (fun i => i.text)) := by
  induction l with
  | nil => intro b y hy _; simpa using hy
  | cons t rest ih =>
    intro b y hy hl
    refine ih _ y ?_ (fun u hu => hl u (List.mem_cons_of_mem _ hu))
    intro hmem
    rcases texts_demote_step_subset now day t.text (new_count t) b y hmem with rfl | hmem2
    · exact hl t (List.mem_cons_self _ _) rfl
    · exact hy hmem2

theorem fold_demote_mem_of_ne (now day : String) (l : List Task) :
    ∀ (b : List BacklogItem) (item : BacklogItem), item ∈ b →
      (∀ t ∈ l, t.text ≠ item.text) →
      item ∈ l.foldl (fun bb t => demote_step now day bb t.text (new_count t)) b := by
  induction l with
  | nil => intro b item hmem _; simpa using hmem
  | cons t rest ih =>
    intro b item hmem hl
    refine ih _ item ?_ (fun u hu => hl u (List.mem_cons_of_mem _ hu))
    exact mem_demote_step_of_ne now day t.text (new_count t) b item
      (fun he => hl t (List.mem_cons_self _ _) he.symm) hmem

theorem fold_demote_nodup (now day : String) (l : List Task) :
    ∀ b : List BacklogItem, (b.map (fun i => i.text)).Nodup →
      ((l.foldl (fun bb t => demote_step now day bb t.text (new_count t)) b).map
        (fun i => i.text)).Nodup := by
  induction l with
  | nil => intro b h; simpa using h
  | cons t rest ih =>
    intro b h
    exact ih _ (texts_demote_step_nodup now day t.text (new_count t) b h)

theorem filter_eq_singleton_split {α : Type} (p : α → Bool) :
    ∀ (l : List α) (a : α), l.filter p = [a] →
      ∃ l1 l2, l = l1 ++ a :: l2 ∧ (∀ x ∈ l1, p x = false) ∧
        (∀ x ∈ l2, p x = false) := by
  intro l
  induction l with
  | nil => intro a h; simp [List.filter] at h
  | cons x rest ih =>
    intro a h
    by_cases hp : p x = true
    · rw [List.filter_cons_of_pos hp] at h
      injection h with hx htail
      subst hx
      refine ⟨[], rest, by simp, by simp, ?_⟩
      intro y hy
      cases hpy : p y with
      | false => rfl
      | true =>
        have hmem : y ∈ rest.filter p := List.mem_filter.mpr ⟨hy, hpy⟩
        rw [htail] at hmem
        cases hmem
    · have hp2 : p x = false := by
        cases hpx : p x
        · rfl
        · exact absurd hpx hp
      rw [List.filter_cons_of_neg (by simp [hp2])] at h
      obtain ⟨l1, l2, heq, h1, h2⟩ := ih a h
      exact ⟨x :: l1, l2, by simp [heq], by
        intro y hy
        rcases List.mem_cons.mp hy with rfl | hy2
        · exact hp2
        · exact h1 y hy2, h2⟩

theorem merge_backlog_text_split (now x : String) (c : Nat) (l : List BacklogItem)
    (h : ∃ b ∈ l, b.text = x) :
    ∃ l1 old l2, l = l1 ++ old :: l2 ∧ (∀ b ∈ l1, b.text ≠ x) ∧ old.text = x ∧
      merge_backlog_text now x c l = l1 ++ merged_item now c old :: l2 := by
  induction l with
  | nil =>
    obtain ⟨b, hb, _⟩ := h
    cases hb
  | cons b rest ih =>
    by_cases hb : b.text = x
    · exact ⟨[], b, rest, by simp, by simp, hb, by simp [merge_backlog_text, hb]⟩
    · have h2 : ∃ i ∈ rest, i.text = x := by
        obtain ⟨i, hi, hix⟩ := h
        rcases List.mem_cons.mp hi with rfl | hi2
        · exact absurd hix hb
        · exact ⟨i, hi2, hix⟩
      obtain ⟨l1, old, l2, heq, h1, hox, hres⟩ := ih h2
      refine ⟨b :: l1, old, l2, by simp [heq], ?_, hox,
        by simp [merge_backlog_text, hb, hres]⟩
      intro y hy
      rcases List.mem_cons.mp hy with rfl | hy2
      · exact hb
      · exact h1 y hy2

theorem le_foldl_max_id (l : List BacklogItem) :
    ∀ a : Nat, a ≤ l.foldl (fun m i => max m i.id) a := by
  induction l with
  | nil => intro a; simp
  | cons b rest ih =>
    intro a
    calc a ≤ max a b.id := Nat.le_max_left _ _
    _ ≤ rest.foldl (fun m i => max m i.id) (max a b.id) := ih _

theorem id_lt_next_backlog_id (l : List BacklogItem) :
    ∀ b ∈ l, b.id < next_backlog_id l := by
  have key : ∀ (l : List BacklogItem) (a : Nat) (b : BacklogItem), b ∈ l →
      b.id ≤ l.foldl (fun m i => max m i.id) a := by
    intro l
    induction l with
    | nil => intro a b hb; cases hb
    | cons x rest ih =>
      intro a b hb
      rcases List.mem_cons.mp hb with rfl | hb2
      · calc b.id ≤ max a b.id := Nat.le_max_right _ _
        _ ≤ rest.foldl (fun m i => max m i.id) (max a b.id) := le_foldl_max_id rest _
      · exact ih _ b hb2
  intro b hb
  have := key l 0 b hb
  unfold next_backlog_id
  omega

theorem set_done_spec (now : String) (task_id : Nat) :
    ∀ (l : List Task) (t : Task),
      find_task_in l task_id = some t →
      find_task_in (set_done now task_id l) task_id =
          some { t with status := "done", done_at := some now } ∧
        (set_done now task_id l).length = l.length ∧
        ∀ u ∈ l, u.id ≠ task_id → u ∈ set_done now task_id l := by
  intro l
  induction l with
  | nil => intro t h; simp [find_task_in] at h
  | cons x rest ih =>
    intro t hfind
    by_cases h : x.id = task_id
    · have hx : x = t := by
        rw [find_task_in, if_pos h] at hfind
        exact Option.some.inj hfind
      subst hx
      refine ⟨?_, ?_, ?_⟩
      · simp [set_done, h, find_task_in]
      · simp [set_done, h]
      · intro u hu hne
        rcases List.mem_cons.mp hu with rfl | hu2
        · exact absurd h hne
        · simp [set_done, h, hu2]
    · have hfind2 : find_task_in rest task_id = some t := by
        rwa [find_task_in, if_neg h] at hfind
      obtain ⟨h1, h2, h3⟩ := ih t hfind2
      refine ⟨?_, ?_, ?_⟩
      · simp [set_done, h, find_task_in, h1]
      · simp [set_done, h, h2]
      · intro u hu hne
        rcases List.mem_cons.mp hu with rfl | hu2
        · simp [set_done, h]
        · simp only [set_done, if_neg h, List.mem_cons]
          right
          exact h3 u hu2 hne

theorem ensure_min_tasks_ids (now : String) (m : Nat) (d : Day) :
    (ensure_min_tasks now m d).tasks.map (fun t => t.id) =
      List.range' 1 (ensure_min_tasks now m d).tasks.length := by
  unfold ensure_min_tasks
  simp [normalize_task_ids_map_id, normalize_task_ids_length]

theorem merge_tomorrow_ids (now : String) (carry : List Task) (tom : Day) :
    (merge_tomorrow now carry tom).tasks.map (fun t => t.id) =
      List.range' 1 (merge_tomorrow now carry tom).tasks.length := by
  unfold merge_tomorrow
  exact ensure_min_tasks_ids now 3 _

/-- C4: for every user record in which today's day is already closed, the
close-day command is rejected (no report is produced) and the persisted
record is left exactly as it was: `cmd_evening` returns the unchanged input
record together with the rejection flag, so no day, task, backlog or habit
field is mutated and nothing is written. -/
theorem C4_close_already_closed_rejected (now day tmr : String) (s : UserState)
    (d : Day) (hfind : find_day s.days day = some d) (hclosed : d.closed = true) :
    cmd_evening now day tmr s = (s, false) := by
  unfold cmd_evening get_day
  rw [hfind]
  simp [hclosed]

/-- Witness for C4 at a concrete record with a closed today. -/
theorem C4_witness :
    cmd_evening "n" "d1" "d2"
        ⟨[("d1", ⟨[], true, "t0", some "t0"⟩)], [], [], []⟩ =
      (⟨[("d1", ⟨[], true, "t0", some "t0"⟩)], [], [], []⟩, false) :=
  C4_close_already_closed_rejected "n" "d1" "d2" _ ⟨[], true, "t0", some "t0"⟩
    (by decide) (by decide)

/-- C9: `apply_done` fails with the day-closed error on a closed day, with
the task-not-found error when no task has the id, with the already-done error
when the found task is already done (the error leaves the day unchanged, as
`apply_done` returns no state on error and the caller does not save), and
otherwise succeeds, setting exactly that task's status to done with
completion timestamp `now` while preserving the rest of the day. -/
theorem C9_mark_done_cases (now : String) (d : Day) (tid : Nat) (t : Task) :
    (d.closed = true → apply_done now d tid = Except.error DoneError.dayClosed) ∧
    (d.closed = false → find_task d tid = none →
      apply_done now d tid = Except.error DoneError.taskNotFound) ∧
    (d.closed = false → find_task d tid = some t → t.status = "done" →
      apply_done now d tid = Except.error DoneError.alreadyDone) ∧
    (d.closed = false → find_task d tid = some t → t.status ≠ "done" →
      ∃ d2, apply_done now d tid = Except.ok d2 ∧ d2.closed = d.closed ∧
        d2.created_at = d.created_at ∧ d2.closed_at = d.closed_at ∧
        find_task d2 tid = some { t with status := "done", done_at := some now } ∧
        d2.tasks.length = d.tasks.length ∧
        ∀ u ∈ d.tasks, u.id ≠ tid → u ∈ d2.tasks) := by
  refine ⟨?_, ?_, ?_, ?_⟩
  · intro hclosed
    simp [apply_done, hclosed]
  · intro hopen hfind
    simp [apply_done, hopen, hfind]
  · intro hopen hfind hdone
    simp [apply_done, hopen, hfind, hdone]
  · intro hopen hfind hnotdone
    obtain ⟨h1, h2, h3⟩ := set_done_spec now tid d.tasks t hfind
    refine ⟨{ d with tasks := set_done now tid d.tasks }, ?_, rfl, rfl, rfl,
      h1, h2, h3⟩
    simp [apply_done, hopen, hfind, hnotdone]

/-- Witness for C9: the success case at a concrete one-task open day. -/
theorem C9_witness :
    ∃ d2, apply_done "n" ⟨[⟨1, "a", "todo", "t0", none, none, none⟩], false, "t0", none⟩ 1 =
        Except.ok d2 ∧
      d2.closed = (⟨[⟨1, "a", "todo", "t0", none, none, none⟩], false, "t0", none⟩ : Day).closed ∧
      d2.created_at = (⟨[⟨1, "a", "todo", "t0", none, none, none⟩], false, "t0", none⟩ : Day).created_at ∧
      d2.closed_at = (⟨[⟨1, "a", "todo", "t0", none, none, none⟩], false, "t0", none⟩ : Day).closed_at ∧
      find_task d2 1 = some { (⟨1, "a", "todo", "t0", none, none, none⟩ : Task) with
        status := "done", done_at := some "n" } ∧
      d2.tasks.length = (⟨[⟨1, "a", "todo", "t0", none, none, none⟩], false, "t0", none⟩ : Day).tasks.length ∧
      ∀ u ∈ (⟨[⟨1, "a", "todo", "t0", none, none, none⟩], false, "t0", none⟩ : Day).tasks,
        u.id ≠ 1 → u ∈ d2.tasks :=
  (C9_mark_done_cases "n" ⟨[⟨1, "a", "todo", "t0", none, none, none⟩], false, "t0", none⟩
      1 ⟨1, "a", "todo", "t0", none, none, none⟩).2.2.2
    (by decide) (by decide) (by decide)

/-- C2: every demotion step of the day-close (the per-task operation
`demote_step` used by `close_loop` in `build_evening_report`): when the
backlog already has an item with identical text, no item is added (the length
is unchanged) and the first such item is replaced by `merged_item` — its carry
count becomes the maximum of the old and the demoted value and its last-seen
timestamp is refreshed — while all other items are untouched; when no item has
the text, a fresh item is appended whose id is `next_backlog_id`, strictly
above every existing id (maximum existing id plus 1, attained). -/
theorem C2_demote_merge_or_fresh (now day x : String) (c : Nat)
    (backlog : List BacklogItem) :
    ((∃ b ∈ backlog, b.text = x) →
      (demote_step now day backlog x c).length = backlog.length ∧
      ∃ l1 old l2, backlog = l1 ++ old :: l2 ∧ (∀ b ∈ l1, b.text ≠ x) ∧
        old.text = x ∧
        demote_step now day backlog x c = l1 ++ merged_item now c old :: l2) ∧
    ((∀ b ∈ backlog, b.text ≠ x) →
      demote_step now day backlog x c =
        backlog ++ [{ id := next_backlog_id backlog, text := x, created_at := now,
                      source_day := some day, last_seen_at := now,
                      carry_count := some c }] ∧
      (∀ b ∈ backlog, b.id < next_backlog_id backlog) ∧
      (backlog ≠ [] → ∃ b0 ∈ backlog, next_backlog_id backlog = b0.id + 1)) := by
  constructor
  · intro hex
    have hany : backlog.any (fun b => b.text == x) = true := by
      obtain ⟨b, hb, hbx⟩ := hex
      exact List.any_eq_true.mpr ⟨b, hb, by simp [hbx]⟩
    obtain ⟨l1, old, l2, heq, h1, hox, hres⟩ :=
      merge_backlog_text_split now x c backlog hex
    refine ⟨?_, l1, old, l2, heq, h1, hox, ?_⟩
    · unfold demote_step
      rw [if_pos hany, hres, heq]
      simp
    · unfold demote_step
      rw [if_pos hany, hres]
  · intro hnone
    refine ⟨demote_step_fresh now day x c backlog hnone,
      id_lt_next_backlog_id backlog, ?_⟩
    intro hne
    have key : ∀ (l : List BacklogItem) (a : Nat),
        (∃ b0 ∈ l, l.foldl (fun m i => max m i.id) a = b0.id) ∨
          l.foldl (fun m i => max m i.id) a = a := by
      intro l
      induction l with
      | nil => intro a; exact Or.inr rfl
      | cons y rest ih =>
        intro a
        rcases ih (max a y.id) with ⟨b0, hb0, heq⟩ | heq
        · exact Or.inl ⟨b0, List.mem_cons_of_mem _ hb0, heq⟩
        · by_cases hy : a ≤ y.id
          · refine Or.inl ⟨y, List.mem_cons_self _ _, ?_⟩
            simp only [List.foldl_cons] at heq ⊢
            rw [heq, Nat.max_eq_right hy]
          · refine Or.inr ?_
            simp only [List.foldl_cons] at heq ⊢
            rw [heq, Nat.max_eq_left (Nat.le_of_not_le hy)]
    rcases key backlog 0 with ⟨b0, hb0, heq⟩ | heq
    · exact ⟨b0, hb0, by unfold next_backlog_id; rw [heq]⟩
    · match backlog, hne with
      | y :: rest, _ =>
        have hy := id_lt_next_backlog_id (y :: rest) y (List.mem_cons_self _ _)
        unfold next_backlog_id at hy ⊢
        rw [heq] at hy ⊢
        refine ⟨y, List.mem_cons_self _ _, ?_⟩
        omega

/-- Witness for C2: the merge branch at a concrete two-item backlog. -/
theorem C2_witness :
    (demote_step "n" "d3" [⟨1, "b", "t0", none, "t0", some 1⟩,
        ⟨2, "a", "t0", none, "t0", some 1⟩] "a" 3).length =
      ([⟨1, "b", "t0", none, "t0", some 1⟩,
        ⟨2, "a", "t0", none, "t0", some 1⟩] : List BacklogItem).length ∧
    ∃ l1 old l2,
      ([⟨1, "b", "t0", none, "t0", some 1⟩,
        ⟨2, "a", "t0", none, "t0", some 1⟩] : List BacklogItem) = l1 ++ old :: l2 ∧
      (∀ b ∈ l1, b.text ≠ "a") ∧ old.text = "a" ∧
      demote_step "n" "d3" [⟨1, "b", "t0", none, "t0", some 1⟩,
          ⟨2, "a", "t0", none, "t0", some 1⟩] "a" 3 =
        l1 ++ merged_item "n" 3 old :: l2 :=
  (C2_demote_merge_or_fresh "n" "d3" "a" 3
      [⟨1, "b", "t0", none, "t0", some 1⟩, ⟨2, "a", "t0", none, "t0", some 1⟩]).1
    ⟨⟨2, "a", "t0", none, "t0", some 1⟩, by decide, by decide⟩

theorem build_evening_report_find_tmr_exists (now day tmr : String)
    (s : UserState) (day_obj : Day) :
    ∃ carry tom1, find_day (build_evening_report now day tmr s day_obj).days tmr =
      some (merge_tomorrow now carry tom1) := by
  refine ⟨(close_loop now day (todo_of (seeded_tasks now day_obj)) s.backlog []).2,
    force_open (get_day { s with days := set_day s.days day (closed_day now day_obj) } tmr now).2,
    ?_⟩
  unfold build_evening_report
  simp [apply_ite UserState.days, find_day_set_day_self]

/-- C5: after each Task List Engine mutation — adding a task, removing tasks,
the close-day merge into tomorrow, and the minimum top-up — the resulting
task list carries ids exactly `1..count` in list order (no gaps, no
duplicates), expressed as the id projection being `List.range' 1 count`. -/
theorem C5_dense_ids (now day tmr text : String) (s s0 : UserState)
    (dayR : Day) (ids : List Nat) (d2 : Day) (removed : List Task)
    (day_obj : Day) (tomAfter : Day) (m : Nat) (dE : Day)
    (hrem : remove_tasks dayR ids = Except.ok (d2, removed))
    (hclose : find_day (build_evening_report now day tmr s0 day_obj).days tmr =
      some tomAfter) :
    ((add_task_to_day now s day text).2.tasks.map (fun t => t.id) =
       List.range' 1 (add_task_to_day now s day text).2.tasks.length) ∧
    (d2.tasks.map (fun t => t.id) = List.range' 1 d2.tasks.length) ∧
    (tomAfter.tasks.map (fun t => t.id) = List.range' 1 tomAfter.tasks.length) ∧
    ((ensure_min_tasks now m dE).tasks.map (fun t => t.id) =
       List.range' 1 (ensure_min_tasks now m dE).tasks.length) := by
  refine ⟨?_, ?_, ?_, ensure_min_tasks_ids now m dE⟩
  · simp [add_task_to_day, added_day, normalize_task_ids_map_id,
      normalize_task_ids_length]
  · unfold remove_tasks at hrem
    by_cases hc : dayR.closed = true
    · rw [if_pos hc] at hrem
      cases hrem
    · rw [if_neg hc] at hrem
      by_cases he : (dayR.tasks.filter (fun t => ids.contains t.id)).isEmpty = true
      · rw [if_pos he] at hrem
        cases hrem
      · rw [if_neg he] at hrem
        have hd2 : d2 = { dayR with
            tasks := normalize_task_ids (dayR.tasks.filter (fun t => !(ids.contains t.id))) } := by
          have hp := Option.some.inj (congrArg Except.toOption hrem)
          exact (congrArg Prod.fst hp).symm
        rw [hd2]
        simp [normalize_task_ids_map_id, normalize_task_ids_length]
  · obtain ⟨carry, tom1, hfind⟩ :=
      build_evening_report_find_tmr_exists now day tmr s0 day_obj
    rw [hfind] at hclose
    have ht : tomAfter = merge_tomorrow now carry tom1 := (Option.some.inj hclose).symm
    rw [ht]
    exact merge_tomorrow_ids now carry tom1

/-- Witness for C5 at concrete inputs: a two-task removal, and the close of
an empty day producing tomorrow with ids 1..3. -/
theorem C5_witness :
    ((add_task_to_day "n" ⟨[], [], [], []⟩ "d1" "a").2.tasks.map (fun t => t.id) =
       List.range' 1 (add_task_to_day "n" ⟨[], [], [], []⟩ "d1" "a").2.tasks.length) ∧
    ((⟨[⟨1, "b", "todo", "t0", none, none, none⟩], false, "t0", none⟩ : Day).tasks.map (fun t => t.id) =
       List.range' 1 (⟨[⟨1, "b", "todo", "t0", none, none, none⟩], false, "t0", none⟩ : Day).tasks.length) ∧
    ((⟨[⟨1, "Python: 30 мин теория (Notion)", "todo", "n", none, some "d1", some 1⟩,
        ⟨2, "Python: 30 мин практика (PyCharm)", "todo", "n", none, some "d1", some 1⟩,
        ⟨3, "5 мин итог: что понял/что повторить", "todo", "n", none, some "d1", some 1⟩],
       false, "n", none⟩ : Day).tasks.map (fun t => t.id) =
       List.range' 1 (⟨[⟨1, "Python: 30 мин теория (Notion)", "todo", "n", none, some "d1", some 1⟩,
        ⟨2, "Python: 30 мин практика (PyCharm)", "todo", "n", none, some "d1", some 1⟩,
        ⟨3, "5 мин итог: что понял/что повторить", "todo", "n", none, some "d1", some 1⟩],
       false, "n", none⟩ : Day).tasks.length) ∧
    ((ensure_min_tasks "n" 3 ⟨[], false, "t0", none⟩).tasks.map (fun t => t.id) =
       List.range' 1 (ensure_min_tasks "n" 3 ⟨[], false, "t0", none⟩).tasks.length) :=
  C5_dense_ids "n" "d1" "d2" "a" ⟨[], [], [], []⟩ ⟨[], [], [("k", "T")], []⟩
    ⟨[⟨1, "a", "todo", "t0", none, none, none⟩, ⟨2, "b", "todo", "t0", none, none, none⟩],
     false, "t0", none⟩
    [1]
    ⟨[⟨1, "b", "todo", "t0", none, none, none⟩], false, "t0", none⟩
    [⟨1, "a", "todo", "t0", none, none, none⟩]
    ⟨[], false, "t0", none⟩
    ⟨[⟨1, "Python: 30 мин теория (Notion)", "todo", "n", none, some "d1", some 1⟩,
      ⟨2, "Python: 30 мин практика (PyCharm)", "todo", "n", none, some "d1", some 1⟩,
      ⟨3, "5 мин итог: что понял/что повторить", "todo", "n", none, some "d1", some 1⟩],
     false, "n", none⟩
    3 ⟨[], false, "t0", none⟩ (by rfl) (by decide)

/-- Counterexample to C6: the direct add-to-backlog handler appends
unconditionally, so adding text "a" to a backlog that already holds an item
with text "a" (pairwise-distinct texts beforehand) produces two items with
identical text. -/
theorem C6_counterexample :
    ((([⟨1, "a", "t0", none, "t0", some 0⟩] : List BacklogItem)).map
        (fun b => b.text)).Nodup ∧
    ¬ ((add_backlog_direct "t1" "a"
          ⟨[], [⟨1, "a", "t0", none, "t0", some 0⟩], [], []⟩).backlog.map
            (fun b => b.text)).Nodup := by
  constructor
  · decide
  · decide

/-- C6 (amended): the day-close demotion preserves uniqueness of backlog item
texts — when the demoted text is already present the close merges into the
existing item instead of creating a duplicate — so a close of a day starting
from a backlog with pairwise-distinct texts ends with pairwise-distinct
texts.  The direct add-to-backlog handler, by contrast, performs no such
check (see the counterexample). -/
theorem C6_amended_close_preserves_backlog_text_nodup (now day tmr : String)
    (s : UserState) (day_obj : Day)
    (h : (s.backlog.map (fun b => b.text)).Nodup) :
    ((build_evening_report now day tmr s day_obj).backlog.map
        (fun b => b.text)).Nodup := by
  rw [build_evening_report_backlog,
    close_loop_backlog now day (todo_of (seeded_tasks now day_obj)) s.backlog []]
  unfold normalize_task_ids_backlog
  rw [normalize_backlog_from_map_text]
  exact fold_demote_nodup now day _ s.backlog h

/-- Witness for the amended C6 at a concrete close that merges a demoted task
into an existing backlog item. -/
theorem C6_amended_witness :
    ((build_evening_report "n" "d1" "d2"
        ⟨[("d1", ⟨[⟨1, "a", "todo", "t0", none, none, some 5⟩], false, "t0", none⟩)],
         [⟨1, "a", "b0", some "d0", "b0", some 3⟩, ⟨2, "b", "b0", some "d0", "b0", some 3⟩],
         [("k", "T")], []⟩
        ⟨[⟨1, "a", "todo", "t0", none, none, some 5⟩], false, "t0", none⟩).backlog.map
        (fun b => b.text)).Nodup :=
  C6_amended_close_preserves_backlog_text_nodup "n" "d1" "d2"
    ⟨[("d1", ⟨[⟨1, "a", "todo", "t0", none, none, some 5⟩], false, "t0", none⟩)],
     [⟨1, "a", "b0", some "d0", "b0", some 3⟩, ⟨2, "b", "b0", some "d0", "b0", some 3⟩],
     [("k", "T")], []⟩
    ⟨[⟨1, "a", "todo", "t0", none, none, some 5⟩], false, "t0", none⟩
    (by decide)

theorem add_task_to_day_found (now tx dy : String) (s : UserState) (d : Day)
    (hfind : find_day s.days dy = some d) :
    add_task_to_day now s dy tx =
      ({ s with days := set_day s.days dy (added_day now tx d) }, added_day now tx d) := by
  unfold add_task_to_day get_day
  rw [hfind]

theorem added_day_map_text (now tx : String) (d : Day) :
    (added_day now tx d).tasks.map (fun t => t.text) =
      d.tasks.map (fun t => t.text) ++ [tx] := by
  unfold added_day normalize_task_ids
  rw [normalize_from_map_text]
  simp

theorem default_tasks_from_map_text (now : String) :
    ∀ (i : Nat) (l : List String),
      (default_tasks_from now i l).map (fun t => t.text) = l := by
  intro i l
  induction l generalizing i with
  | nil => rfl
  | cons x rest ih => simp [default_tasks_from, ih]

/-- Counterexample to C7: the `day:reopen_today` callback does not reset the
day to a fresh empty default-seeded plan — reopening a closed day whose task
list holds the leftover task "x" keeps that task (and "x" is not the default
plan). -/
theorem C7_counterexample :
    ((find_day (reopen_today_callback "t1" "d1"
        ⟨[("d1", ⟨[⟨1, "x", "todo", "t0", none, none, none⟩], true, "t0", some "t0"⟩)],
         [], [], []⟩).days "d1").map (fun d => d.tasks.map (fun t => t.text)) =
      some ["x"]) ∧ ¬ (["x"] = DEFAULT_TASKS) := by
  constructor
  · decide
  · decide

/-- C7 (amended): a close marks the closed day `closed = true` with the close
timestamp; a second close of the same day is rejected without mutation; the
`day:reopen` callback reverts the day to open and clears the close timestamp
but keeps the existing tasks, seeding the default plan only when the task
list is empty; only the add-flow reopen (`add:reopen_today`) replaces the day
with a fresh default-seeded plan (plus the entered task). -/
theorem C7_amended_close_once_reopen (now day tmr text : String) (s : UserState)
    (day_obj d : Day)
    (hne : day ≠ tmr) (hfind : find_day s.days day = some d) :
    (∃ dc, find_day (build_evening_report now day tmr s day_obj).days day = some dc ∧
       dc.closed = true ∧ dc.closed_at = some now) ∧
    (d.closed = true → cmd_evening now day tmr s = (s, false)) ∧
    (∃ d2, find_day (reopen_today_callback now day s).days day = some d2 ∧
       d2.closed = false ∧ d2.closed_at = none ∧
       d2.tasks = (if d.tasks.isEmpty then default_tasks_from now 1 DEFAULT_TASKS
                   else d.tasks)) ∧
    (∃ d3, find_day (reopen_today_add now day text s).1.days day = some d3 ∧
       d3.closed = false ∧
       d3.tasks.map (fun t => t.text) = DEFAULT_TASKS ++ [text]) := by
  refine ⟨?_, ?_, ?_, ?_⟩
  · exact ⟨closed_day now day_obj,
      build_evening_report_find_day now day tmr s day_obj hne, rfl, rfl⟩
  · intro hclosed
    unfold cmd_evening get_day
    rw [hfind]
    simp [hclosed]
  · unfold reopen_today_callback get_day
    rw [hfind]
    by_cases hemp : d.tasks.isEmpty = true
    · have hcreate :
          create_default_plan now { d with closed := false, closed_at := none } =
            { d with closed := false, closed_at := none,
                     tasks := default_tasks_from now 1 DEFAULT_TASKS } := by
        simp [create_default_plan, hemp]
      refine ⟨create_default_plan now { d with closed := false, closed_at := none },
        ?_, ?_, ?_, ?_⟩
      · simp only [hemp, if_true]
        exact find_day_set_day_self _ _ _
      · simp [hcreate]
      · simp [hcreate]
      · simp [hcreate, hemp]
    · refine ⟨{ d with closed := false, closed_at := none }, ?_, rfl, rfl, ?_⟩
      · simp only [hemp, if_false]
        exact find_day_set_day_self _ _ _
      · simp [hemp]
  · have hd1 : create_default_plan now (fresh_day now) =
        { fresh_day now with tasks := default_tasks_from now 1 DEFAULT_TASKS } := by
      simp [create_default_plan, fresh_day]
    have hstep : find_day (set_day (set_day s.days day (fresh_day now)) day
        (create_default_plan now (fresh_day now))) day =
        some (create_default_plan now (fresh_day now)) :=
      find_day_set_day_self _ _ _
    simp only [reopen_today_add]
    rw [add_task_to_day_found now text day _ _ hstep]
    refine ⟨_, find_day_set_day_self _ _ _, ?_, ?_⟩
    · rw [hd1]; rfl
    · rw [added_day_map_text, hd1]
      simp [default_tasks_from_map_text, fresh_day]

/-- Witness for the amended C7 at a concrete record with a closed today
holding a leftover task. -/
theorem C7_amended_witness :
    (∃ dc, find_day (build_evening_report "n" "d1" "d2"
        ⟨[("d1", ⟨[⟨1, "x", "todo", "t0", none, none, none⟩], true, "t0", some "t0"⟩)],
         [], [], []⟩
        ⟨[⟨1, "x", "todo", "t0", none, none, none⟩], true, "t0", some "t0"⟩).days "d1" =
          some dc ∧ dc.closed = true ∧ dc.closed_at = some "n") ∧
    ((⟨[⟨1, "x", "todo", "t0", none, none, none⟩], true, "t0", some "t0"⟩ : Day).closed = true →
      cmd_evening "n" "d1" "d2"
        ⟨[("d1", ⟨[⟨1, "x", "todo", "t0", none, none, none⟩], true, "t0", some "t0"⟩)],
         [], [], []⟩ =
      (⟨[("d1", ⟨[⟨1, "x", "todo", "t0", none, none, none⟩], true, "t0", some "t0"⟩)],
        [], [], []⟩, false)) ∧
    (∃ d2, find_day (reopen_today_callback "n" "d1"
        ⟨[("d1", ⟨[⟨1, "x", "todo", "t0", none, none, none⟩], true, "t0", some "t0"⟩)],
         [], [], []⟩).days "d1" = some d2 ∧
       d2.closed = false ∧ d2.closed_at = none ∧
       d2.tasks = (if (⟨[⟨1, "x", "todo", "t0", none, none, none⟩], true, "t0",
            some "t0"⟩ : Day).tasks.isEmpty then default_tasks_from "n" 1 DEFAULT_TASKS
          else (⟨[⟨1, "x", "todo", "t0", none, none, none⟩], true, "t0", some "t0"⟩ : Day).tasks)) ∧
    (∃ d3, find_day (reopen_today_add "n" "d1" "y"
        ⟨[("d1", ⟨[⟨1, "x", "todo", "t0", none, none, none⟩], true, "t0", some "t0"⟩)],
         [], [], []⟩).1.days "d1" = some d3 ∧
       d3.closed = false ∧
       d3.tasks.map (fun t => t.text) = DEFAULT_TASKS ++ ["y"]) :=
  C7_amended_close_once_reopen "n" "d1" "d2" "y"
    ⟨[("d1", ⟨[⟨1, "x", "todo", "t0", none, none, none⟩], true, "t0", some "t0"⟩)],
     [], [], []⟩
    ⟨[⟨1, "x", "todo", "t0", none, none, none⟩], true, "t0", some "t0"⟩
    ⟨[⟨1, "x", "todo", "t0", none, none, none⟩], true, "t0", some "t0"⟩
    (by decide) (by decide)

theorem normalize_from_map_status (i : Nat) (xs : List Task) :
    (normalize_from i xs).map (fun t => t.status) = xs.map (fun t => t.status) := by
  induction xs generalizing i with
  | nil => rfl
  | cons t rest ih => simp [normalize_from, ih]

theorem normalize_from_map_carried_from (i : Nat) (xs : List Task) :
    (normalize_from i xs).map (fun t => t.carried_from) =
      xs.map (fun t => t.carried_from) := by
  induction xs generalizing i with
  | nil => rfl
  | cons t rest ih => simp [normalize_from, ih]

theorem normalize_from_map_carry_count (i : Nat) (xs : List Task) :
    (normalize_from i xs).map (fun t => t.carry_count) =
      xs.map (fun t => t.carry_count) := by
  induction xs generalizing i with
  | nil => rfl
  | cons t rest ih => simp [normalize_from, ih]

/-- Counterexample to C8: the `triage_to` (and `move:`/`pick_to:`) path
inserts unconditionally — returning a backlog item whose text "a" already
exists in today's open plan duplicates the task: today ends with two tasks of
text "a". -/
theorem C8_counterexample :
    (triage_move_to_day "t1" "d1" true 1
        ⟨[("d1", ⟨[⟨1, "a", "todo", "t0", none, none, none⟩], false, "t0", none⟩)],
         [⟨1, "a", "b0", some "d0", "b0", some 3⟩], [], []⟩).toOption.map
      (fun s2 => (find_day s2.days "d1").map (fun d => d.tasks.map (fun t => t.text))) =
      some (some ["a", "a"]) := by
  decide

/-- C8 (amended): the `backlog:return` triage behaves as the claim states —
if today already contains a task with the item's text the backlog item is
removed without inserting a task, otherwise a todo task with the item's text,
source day and carry count is appended — and in both cases the remaining
backlog is renumbered densely.  The `triage_to:`/`move:`/`pick_to:` paths by
contrast insert unconditionally via plain `add_task_to_day` (see the
counterexample). -/
theorem C8_amended_backlog_return (now day : String) (item_id : Nat)
    (s : UserState) (item : BacklogItem) (d : Day)
    (hitem : find_backlog_item s.backlog item_id = some item)
    (hday : find_day s.days day = some d)
    (hopen : d.closed = false) :
    ∃ s2, backlog_return now day item_id s = Except.ok s2 ∧
      s2.backlog.map (fun b => b.text) =
        (remove_first s.backlog item).map (fun b => b.text) ∧
      s2.backlog.map (fun b => b.id) =
        List.range' 1 (remove_first s.backlog item).length ∧
      ∃ d2, find_day s2.days day = some d2 ∧
        (item.text ∈ d.tasks.map (fun t => t.text) → d2 = d) ∧
        (item.text ∉ d.tasks.map (fun t => t.text) →
          d2.tasks.map (fun t => t.text) =
            d.tasks.map (fun t => t.text) ++ [item.text] ∧
          d2.tasks.map (fun t => t.status) =
            d.tasks.map (fun t => t.status) ++ ["todo"] ∧
          d2.tasks.map (fun t => t.carried_from) =
            d.tasks.map (fun t => t.carried_from) ++ [item.source_day] ∧
          d2.tasks.map (fun t => t.carry_count) =
            d.tasks.map (fun t => t.carry_count) ++ [some (getCarry item.carry_count)]) := by
  unfold backlog_return
  rw [hitem]
  unfold get_day
  rw [hday]
  simp only [hopen]
  rw [if_neg (by simp)]
  by_cases hb : (d.tasks.map (fun t => t.text)).contains item.text = true
  · rw [if_pos hb]
    refine ⟨_, rfl, ?_, ?_, d, find_day_set_day_self _ _ _, fun _ => rfl, ?_⟩
    · unfold normalize_task_ids_backlog
      rw [normalize_backlog_from_map_text]
    · unfold normalize_task_ids_backlog
      rw [normalize_backlog_from_map_id]
    · intro hmem
      exact absurd (by simpa using hb) hmem
  · rw [if_neg hb]
    refine ⟨_, rfl, ?_, ?_, _, find_day_set_day_self _ _ _, ?_, ?_⟩
    · unfold normalize_task_ids_backlog
      rw [normalize_backlog_from_map_text]
    · unfold normalize_task_ids_backlog
      rw [normalize_backlog_from_map_id]
    · intro hmem
      exact absurd hmem (by simpa using hb)
    · intro _
      refine ⟨?_, ?_, ?_, ?_⟩
      · unfold normalize_task_ids
        rw [normalize_from_map_text]
        simp
      · unfold normalize_task_ids
        rw [normalize_from_map_status]
        simp
      · unfold normalize_task_ids
        rw [normalize_from_map_carried_from]
        simp
      · unfold normalize_task_ids
        rw [normalize_from_map_carry_count]
        simp

/-- Witness for the amended C8: return of a backlog item whose text is not in
today's plan. -/
theorem C8_amended_witness :
    ∃ s2, backlog_return "t1" "d1" 1
        ⟨[("d1", ⟨[⟨1, "b", "todo", "t0", none, none, none⟩], false, "t0", none⟩)],
         [⟨1, "a", "b0", some "d0", "b0", some 3⟩], [], []⟩ = Except.ok s2 ∧
      s2.backlog.map (fun b => b.text) =
        (remove_first [⟨1, "a", "b0", some "d0", "b0", some 3⟩]
          ⟨1, "a", "b0", some "d0", "b0", some 3⟩).map (fun b => b.text) ∧
      s2.backlog.map (fun b => b.id) =
        List.range' 1 (remove_first [⟨1, "a", "b0", some "d0", "b0", some 3⟩]
          ⟨1, "a", "b0", some "d0", "b0", some 3⟩).length ∧
      ∃ d2, find_day s2.days "d1" = some d2 ∧
        ((⟨1, "a", "b0", some "d0", "b0", some 3⟩ : BacklogItem).text ∈
            (⟨[⟨1, "b", "todo", "t0", none, none, none⟩], false, "t0", none⟩ : Day).tasks.map
              (fun t => t.text) →
          d2 = ⟨[⟨1, "b", "todo", "t0", none, none, none⟩], false, "t0", none⟩) ∧
        ((⟨1, "a", "b0", some "d0", "b0", some 3⟩ : BacklogItem).text ∉
            (⟨[⟨1, "b", "todo", "t0", none, none, none⟩], false, "t0", none⟩ : Day).tasks.map
              (fun t => t.text) →
          d2.tasks.map (fun t => t.text) =
            (⟨[⟨1, "b", "todo", "t0", none, none, none⟩], false, "t0", none⟩ : Day).tasks.map
              (fun t => t.text) ++ [(⟨1, "a", "b0", some "d0", "b0", some 3⟩ : BacklogItem).text] ∧
          d2.tasks.map (fun t => t.status) =
            (⟨[⟨1, "b", "todo", "t0", none, none, none⟩], false, "t0", none⟩ : Day).tasks.map
              (fun t => t.status) ++ ["todo"] ∧
          d2.tasks.map (fun t => t.carried_from) =
            (⟨[⟨1, "b", "todo", "t0", none, none, none⟩], false, "t0", none⟩ : Day).tasks.map
              (fun t => t.carried_from) ++
              [(⟨1, "a", "b0", some "d0", "b0", some 3⟩ : BacklogItem).source_day] ∧
          d2.tasks.map (fun t => t.carry_count) =
            (⟨[⟨1, "b", "todo", "t0", none, none, none⟩], false, "t0", none⟩ : Day).tasks.map
              (fun t => t.carry_count) ++
              [some (getCarry (⟨1, "a", "b0", some "d0", "b0", some 3⟩ : BacklogItem).carry_count)]) :=
  C8_amended_backlog_return "t1" "d1" 1
    ⟨[("d1", ⟨[⟨1, "b", "todo", "t0", none, none, none⟩], false, "t0", none⟩)],
     [⟨1, "a", "b0", some "d0", "b0", some 3⟩], [], []⟩
    ⟨1, "a", "b0", some "d0", "b0", some 3⟩
    ⟨[⟨1, "b", "todo", "t0", none, none, none⟩], false, "t0", none⟩
    (by decide) (by decide) (by decide)

theorem force_open_tasks (d : Day) : (force_open d).tasks = d.tasks := by
  unfold force_open
  split <;> rfl

theorem filter_by_text_map (p : String → Bool) (l : List Task) :
    (l.filter (fun t => p t.text)).map (fun t => t.text) =
      (l.map (fun t => t.text)).filter p := by
  induction l with
  | nil => rfl
  | cons t rest ih =>
    by_cases h : p t.text = true
    · simp [h, ih]
    · simp [h, ih]

theorem merge_tomorrow_spec (now : String) (carry : List Task) (tom : Day) :
    ∃ added,
      (merge_tomorrow now carry tom).tasks.map (fun t => t.text) =
        (carry.map (fun t => t.text)).filter
          (fun x => !((tom.tasks.map (fun t => t.text)).contains x)) ++
        tom.tasks.map (fun t => t.text) ++ added ∧
      (∀ a ∈ added, a ∈ DEFAULT_TASKS ∧
        a ∉ (carry.map (fun t => t.text)).filter
            (fun x => !((tom.tasks.map (fun t => t.text)).contains x)) ++
          tom.tasks.map (fun t => t.text)) ∧
      (3 ≤ (merge_tomorrow now carry tom).tasks.length ∨
        ∀ a ∈ DEFAULT_TASKS,
          a ∈ (merge_tomorrow now carry tom).tasks.map (fun t => t.text)) := by
  unfold merge_tomorrow ensure_min_tasks
  obtain ⟨extras, heq, k, htext, hdisj⟩ :=
    ensure_min_loop_spec now 3
      (DEFAULT_TASKS.filter (fun text =>
        !(((normalize_task_ids ((carry.filter (fun t =>
            !((tom.tasks.map (fun u => u.text)).contains t.text))) ++ tom.tasks)).map
              (fun t => t.text)).contains text)))
      (normalize_task_ids ((carry.filter (fun t =>
          !((tom.tasks.map (fun u => u.text)).contains t.text))) ++ tom.tasks))
  have hmergedtexts :
      (normalize_task_ids ((carry.filter (fun t =>
          !((tom.tasks.map (fun u => u.text)).contains t.text))) ++ tom.tasks)).map
            (fun t => t.text) =
        (carry.map (fun t => t.text)).filter
            (fun x => !((tom.tasks.map (fun t => t.text)).contains x)) ++
          tom.tasks.map (fun t => t.text) := by
    unfold normalize_task_ids
    rw [normalize_from_map_text, List.map_append,
      filter_by_text_map (fun x => !((tom.tasks.map (fun t => t.text)).contains x)) carry]
  refine ⟨extras.map (fun t => t.text), ?_, ?_, ?_⟩
  · simp only [heq]
    rw [normalize_task_ids_map_text, List.map_append, hmergedtexts, List.append_assoc]
  · intro a ha
    rw [htext] at ha
    have hadds : a ∈ DEFAULT_TASKS.filter (fun text =>
        !(((normalize_task_ids ((carry.filter (fun t =>
            !((tom.tasks.map (fun u => u.text)).contains t.text))) ++ tom.tasks)).map
              (fun t => t.text)).contains text)) :=
      (List.take_sublist k _).subset ha
    have hmem := List.mem_filter.mp hadds
    refine ⟨hmem.1, ?_⟩
    have hnc := hmem.2
    rw [hmergedtexts] at hnc
    intro hcon
    have hc2 : ((carry.map (fun t => t.text)).filter
          (fun x => !((tom.tasks.map (fun t => t.text)).contains x)) ++
        tom.tasks.map (fun t => t.text)).contains a = true := by
      simpa using hcon
    rw [hc2] at hnc
    simp at hnc
  · rcases hdisj with hlen | hk
    · left
      simp only [heq]
      rw [normalize_task_ids_length]
      exact hlen
    · right
      intro a hdef
      simp only [heq]
      rw [normalize_task_ids_map_text, List.map_append, hmergedtexts]
      by_cases hmem : a ∈ (carry.map (fun t => t.text)).filter
            (fun x => !((tom.tasks.map (fun t => t.text)).contains x)) ++
          tom.tasks.map (fun t => t.text)
      · exact List.mem_append_left _ hmem
      · refine List.mem_append_right _ ?_
        rw [htext, hk, List.take_length]
        refine List.mem_filter.mpr ⟨hdef, ?_⟩
        rw [hmergedtexts]
        cases hc : ((carry.map (fun t => t.text)).filter
            (fun x => !((tom.tasks.map (fun t => t.text)).contains x)) ++
          tom.tasks.map (fun t => t.text)).contains a with
        | false => simp [hc]
        | true => exact absurd (by simpa using hc) hmem

/-- C3: in every close of an open day (`day` with its stored `day_obj`,
`tmr` the successor date), the carry-forward tasks — the not-done tasks whose
incremented carry count is below 3, in order — are inserted at the front of
tomorrow's pre-existing task list, skipping those whose text already occurs
in tomorrow's pre-existing list; the merged list carries dense ids
`1..count`; and tomorrow is topped up with default task texts not already
present until it has at least 3 tasks or the default texts are exhausted (in
which case every default text is present). -/
theorem C3_carry_merge_front_and_min (now day tmr : String) (s : UserState)
    (day_obj : Day) (hne : day ≠ tmr) :
    ∃ tomAfter added,
      find_day (build_evening_report now day tmr s day_obj).days tmr =
        some tomAfter ∧
      tomAfter.tasks.map (fun t => t.text) =
        (((todo_of (seeded_tasks now day_obj)).filter
            (fun t => !(decide (3 ≤ new_count t)))).map (fun t => t.text)).filter
          (fun x => !((((find_day s.days tmr).getD (fresh_day now)).tasks.map
              (fun t => t.text)).contains x)) ++
        ((find_day s.days tmr).getD (fresh_day now)).tasks.map (fun t => t.text) ++
        added ∧
      (∀ a ∈ added, a ∈ DEFAULT_TASKS ∧
        a ∉ (((todo_of (seeded_tasks now day_obj)).filter
            (fun t => !(decide (3 ≤ new_count t)))).map (fun t => t.text)).filter
          (fun x => !((((find_day s.days tmr).getD (fresh_day now)).tasks.map
              (fun t => t.text)).contains x)) ++
          ((find_day s.days tmr).getD (fresh_day now)).tasks.map (fun t => t.text)) ∧
      tomAfter.tasks.map (fun t => t.id) = List.range' 1 tomAfter.tasks.length ∧
      (3 ≤ tomAfter.tasks.length ∨
        ∀ a ∈ DEFAULT_TASKS, a ∈ tomAfter.tasks.map (fun t => t.text)) := by
  rw [build_evening_report_find_tmr now day tmr s day_obj hne]
  have hctext :
      ((close_loop now day (todo_of (seeded_tasks now day_obj)) s.backlog []).2).map
          (fun t => t.text) =
        ((todo_of (seeded_tasks now day_obj)).filter
            (fun t => !(decide (3 ≤ new_count t)))).map (fun t => t.text) := by
    rw [close_loop_carry]
    simp [mk_carry_task]
  have httexts :
      (force_open ((find_day s.days tmr).getD (fresh_day now))).tasks.map
          (fun t => t.text) =
        ((find_day s.days tmr).getD (fresh_day now)).tasks.map (fun t => t.text) := by
    rw [force_open_tasks]
  obtain ⟨added, htexts, hadded, hmin⟩ :=
    merge_tomorrow_spec now
      ((close_loop now day (todo_of (seeded_tasks now day_obj)) s.backlog []).2)
      (force_open ((find_day s.days tmr).getD (fresh_day now)))
  rw [hctext, httexts] at htexts hadded
  refine ⟨_, added, rfl, htexts, hadded, merge_tomorrow_ids now _ _, ?_⟩
  rcases hmin with hlen | hall
  · exact Or.inl hlen
  · refine Or.inr ?_
    intro a ha
    exact hall a ha

/-- Witness for C3 at a concrete close: today has a low-carry task "w" and a
task "p" that tomorrow already contains; tomorrow pre-exists with task "p". -/
theorem C3_witness :
    ∃ tomAfter added,
      find_day (build_evening_report "n" "d1" "d2"
        ⟨[("d1", ⟨[⟨1, "w", "todo", "t0", none, none, none⟩,
                   ⟨2, "p", "todo", "t0", none, none, none⟩], false, "t0", none⟩),
          ("d2", ⟨[⟨1, "p", "todo", "t0", none, none, none⟩], false, "t0", none⟩)],
         [], [], []⟩
        ⟨[⟨1, "w", "todo", "t0", none, none, none⟩,
          ⟨2, "p", "todo", "t0", none, none, none⟩], false, "t0", none⟩).days "d2" =
        some tomAfter ∧
      tomAfter.tasks.map (fun t => t.text) =
        (((todo_of (seeded_tasks "n"
            ⟨[⟨1, "w", "todo", "t0", none, none, none⟩,
              ⟨2, "p", "todo", "t0", none, none, none⟩], false, "t0", none⟩)).filter
            (fun t => !(decide (3 ≤ new_count t)))).map (fun t => t.text)).filter
          (fun x => !((((find_day ([("d1", ⟨[⟨1, "w", "todo", "t0", none, none, none⟩,
                   ⟨2, "p", "todo", "t0", none, none, none⟩], false, "t0", none⟩),
          ("d2", ⟨[⟨1, "p", "todo", "t0", none, none, none⟩], false, "t0", none⟩)] :
            List (String × Day)) "d2").getD (fresh_day "n")).tasks.map
              (fun t => t.text)).contains x)) ++
        ((find_day ([("d1", ⟨[⟨1, "w", "todo", "t0", none, none, none⟩,
                   ⟨2, "p", "todo", "t0", none, none, none⟩], false, "t0", none⟩),
          ("d2", ⟨[⟨1, "p", "todo", "t0", none, none, none⟩], false, "t0", none⟩)] :
            List (String × Day)) "d2").getD (fresh_day "n")).tasks.map (fun t => t.text) ++
        added ∧
      (∀ a ∈ added, a ∈ DEFAULT_TASKS ∧
        a ∉ (((todo_of (seeded_tasks "n"
            ⟨[⟨1, "w", "todo", "t0", none, none, none⟩,
              ⟨2, "p", "todo", "t0", none, none, none⟩], false, "t0", none⟩)).filter
            (fun t => !(decide (3 ≤ new_count t)))).map (fun t => t.text)).filter
          (fun x => !((((find_day ([("d1", ⟨[⟨1, "w", "todo", "t0", none, none, none⟩,
                   ⟨2, "p", "todo", "t0", none, none, none⟩], false, "t0", none⟩),
          ("d2", ⟨[⟨1, "p", "todo", "t0", none, none, none⟩], false, "t0", none⟩)] :
            List (String × Day)) "d2").getD (fresh_day "n")).tasks.map
              (fun t => t.text)).contains x)) ++
          ((find_day ([("d1", ⟨[⟨1, "w", "todo", "t0", none, none, none⟩,
                   ⟨2, "p", "todo", "t0", none, none, none⟩], false, "t0", none⟩),
          ("d2", ⟨[⟨1, "p", "todo", "t0", none, none, none⟩], false, "t0", none⟩)] :
            List (String × Day)) "d2").getD (fresh_day "n")).tasks.map (fun t => t.text)) ∧
      tomAfter.tasks.map (fun t => t.id) = List.range' 1 tomAfter.tasks.length ∧
      (3 ≤ tomAfter.tasks.length ∨
        ∀ a ∈ DEFAULT_TASKS, a ∈ tomAfter.tasks.map (fun t => t.text)) :=
  C3_carry_merge_front_and_min "n" "d1" "d2"
    ⟨[("d1", ⟨[⟨1, "w", "todo", "t0", none, none, none⟩,
               ⟨2, "p", "todo", "t0", none, none, none⟩], false, "t0", none⟩),
      ("d2", ⟨[⟨1, "p", "todo", "t0", none, none, none⟩], false, "t0", none⟩)],
     [], [], []⟩
    ⟨[⟨1, "w", "todo", "t0", none, none, none⟩,
      ⟨2, "p", "todo", "t0", none, none, none⟩], false, "t0", none⟩
    (by decide)

/-- C1: in a close of an open day, a not-done task `t` whose incremented
carry count (`new_count`, with a missing carry count read as 0) reaches 3 —
when its text is not already in the backlog and it is the unique not-done
task with its text — is demoted into the backlog with `source_day` the closed
day's date and `carry_count` the incremented value, and no carry-forward task
with its text is merged into tomorrow.  In particular (second group of
conjuncts, a concrete three-close run): a task "w" carried without completion
across three consecutive closes is carried with carry count 1 then 2, the
backlog stays empty after the first two closes, and on the 3rd close it is
demoted with carry count exactly 3 and source day the third day, no longer
appearing in the fourth day's plan. -/
theorem C1_demotion_threshold (now day tmr : String) (s : UserState)
    (day_obj : Day) (t : Task)
    (ht : (todo_of (seeded_tasks now day_obj)).filter
        (fun u => decide (u.text = t.text)) = [t])
    (hhigh : 3 ≤ new_count t)
    (hbacklog : ∀ b ∈ s.backlog, b.text ≠ t.text) :
    ((∃ item ∈ (build_evening_report now day tmr s day_obj).backlog,
        item.text = t.text ∧ item.source_day = some day ∧
        item.carry_count = some (new_count t) ∧ item.created_at = now ∧
        item.last_seen_at = now) ∧
      (∀ u ∈ (close_loop now day (todo_of (seeded_tasks now day_obj))
          s.backlog []).2, u.text ≠ t.text)) ∧
    ((cmd_evening "n1" "d1" "d2"
        ⟨[("d1", ⟨[⟨1, "w", "todo", "t0", none, none, none⟩], false, "t0", none⟩)],
         [], [("k", "T")], []⟩).1.backlog = [] ∧
      ((find_day (cmd_evening "n1" "d1" "d2"
          ⟨[("d1", ⟨[⟨1, "w", "todo", "t0", none, none, none⟩], false, "t0", none⟩)],
           [], [("k", "T")], []⟩).1.days "d2").map
        (fun d => d.tasks.filter (fun u => decide (u.text = "w")))) =
        some [⟨1, "w", "todo", "n1", none, some "d1", some 1⟩] ∧
      (cmd_evening "n2" "d2" "d3" (cmd_evening "n1" "d1" "d2"
        ⟨[("d1", ⟨[⟨1, "w", "todo", "t0", none, none, none⟩], false, "t0", none⟩)],
         [], [("k", "T")], []⟩).1).1.backlog = [] ∧
      ((find_day (cmd_evening "n2" "d2" "d3" (cmd_evening "n1" "d1" "d2"
          ⟨[("d1", ⟨[⟨1, "w", "todo", "t0", none, none, none⟩], false, "t0", none⟩)],
           [], [("k", "T")], []⟩).1).1.days "d3").map
        (fun d => d.tasks.filter (fun u => decide (u.text = "w")))) =
        some [⟨1, "w", "todo", "n2", none, some "d2", some 2⟩] ∧
      (cmd_evening "n3" "d3" "d4" (cmd_evening "n2" "d2" "d3" (cmd_evening "n1" "d1" "d2"
        ⟨[("d1", ⟨[⟨1, "w", "todo", "t0", none, none, none⟩], false, "t0", none⟩)],
         [], [("k", "T")], []⟩).1).1).1.backlog =
        [⟨1, "w", "n3", some "d3", "n3", some 3⟩] ∧
      ((find_day (cmd_evening "n3" "d3" "d4" (cmd_evening "n2" "d2" "d3" (cmd_evening "n1" "d1" "d2"
          ⟨[("d1", ⟨[⟨1, "w", "todo", "t0", none, none, none⟩], false, "t0", none⟩)],
           [], [("k", "T")], []⟩).1).1).1.days "d4").map
        (fun d => d.tasks.filter (fun u => decide (u.text = "w")))) = some []) := by
  constructor
  · obtain ⟨l1, l2, heq, h1, h2⟩ :=
      filter_eq_singleton_split (fun u => decide (u.text = t.text))
        (todo_of (seeded_tasks now day_obj)) t ht
    have hx0 : t.text ∉ s.backlog.map (fun b => b.text) := by
      intro hmem
      obtain ⟨b, hb, hbx⟩ := List.mem_map.mp hmem
      exact hbacklog b hb hbx
    have hfilters :
        (todo_of (seeded_tasks now day_obj)).filter
            (fun u => decide (3 ≤ new_count u)) =
          l1.filter (fun u => decide (3 ≤ new_count u)) ++
            t :: l2.filter (fun u => decide (3 ≤ new_count u)) := by
      rw [heq, List.filter_append, List.filter_cons_of_pos (by simpa using hhigh)]
    have hxl1 : ∀ u ∈ l1.filter (fun u => decide (3 ≤ new_count u)),
        u.text ≠ t.text := by
      intro u hu
      have := h1 u (List.mem_of_mem_filter hu)
      simpa using this
    have hxl2 : ∀ u ∈ l2.filter (fun u => decide (3 ≤ new_count u)),
        u.text ≠ t.text := by
      intro u hu
      have := h2 u (List.mem_of_mem_filter hu)
      simpa using this
    have hx1 : t.text ∉
        ((l1.filter (fun u => decide (3 ≤ new_count u))).foldl
          (fun bb u => demote_step now day bb u.text (new_count u)) s.backlog).map
            (fun b => b.text) :=
      fold_demote_no_new_text now day _ s.backlog t.text hx0 hxl1
    set b1 := (l1.filter (fun u => decide (3 ≤ new_count u))).foldl
        (fun bb u => demote_step now day bb u.text (new_count u)) s.backlog with hb1def
    have hb1ne : ∀ i ∈ b1, i.text ≠ t.text := by
      intro i hi hcon
      exact hx1 (hcon ▸ List.mem_map_of_mem _ hi)
    have hstep := demote_step_fresh now day t.text (new_count t) b1 hb1ne
    have hIfinal :
        (⟨next_backlog_id b1, t.text, now, some day, now, some (new_count t)⟩ :
            BacklogItem) ∈
          (close_loop now day (todo_of (seeded_tasks now day_obj)) s.backlog []).1 := by
      rw [close_loop_backlog, hfilters, List.foldl_append, List.foldl_cons, ← hb1def,
        hstep]
      exact fold_demote_mem_of_ne now day _ _ _
        (List.mem_append_right _ (List.mem_singleton_self _)) hxl2
    constructor
    · rw [build_evening_report_backlog]
      obtain ⟨j, hj⟩ := mem_normalize_backlog_from 1 _ _ hIfinal
      exact ⟨_, hj, rfl, rfl, rfl, rfl, rfl⟩
    · intro u hu hcon
      rw [close_loop_carry] at hu
      simp only [List.nil_append] at hu
      obtain ⟨v, hv, hvu⟩ := List.mem_map.mp hu
      have hvtext : v.text = t.text := by
        rw [← hvu] at hcon
        simpa [mk_carry_task] using hcon
      have hvmem : v ∈ (todo_of (seeded_tasks now day_obj)).filter
          (fun u => decide (u.text = t.text)) :=
        List.mem_filter.mpr ⟨List.mem_of_mem_filter hv, by simpa using hvtext⟩
      rw [ht] at hvmem
      have hveq : v = t := by simpa using hvmem
      have hvlow := List.mem_filter.mp hv
      rw [hveq] at hvlow
      have : ¬ (3 ≤ new_count t) := by simpa using hvlow.2
      exact this hhigh
  · refine ⟨by decide, by decide, by decide, by decide, by decide, by decide⟩

/-- Witness for C1 at a concrete close: a unique todo task "z" with carry
count 2 (incremented 3) and a backlog without "z". -/
theorem C1_witness :
    (∃ item ∈ (build_evening_report "n" "d9" "da"
        ⟨[("d9", ⟨[⟨1, "z", "todo", "t0", none, none, some 2⟩], false, "t0", none⟩)],
         [], [], []⟩
        ⟨[⟨1, "z", "todo", "t0", none, none, some 2⟩], false, "t0", none⟩).backlog,
        item.text = "z" ∧ item.source_day = some "d9" ∧
        item.carry_count = some 3 ∧ item.created_at = "n" ∧
        item.last_seen_at = "n") ∧
    (∀ u ∈ (close_loop "n" "d9" (todo_of (seeded_tasks "n"
        ⟨[⟨1, "z", "todo", "t0", none, none, some 2⟩], false, "t0", none⟩)) [] []).2,
      u.text ≠ "z") :=
  (C1_demotion_threshold "n" "d9" "da"
      ⟨[("d9", ⟨[⟨1, "z", "todo", "t0", none, none, some 2⟩], false, "t0", none⟩)],
       [], [], []⟩
      ⟨[⟨1, "z", "todo", "t0", none, none, some 2⟩], false, "t0", none⟩
      ⟨1, "z", "todo", "t0", none, none, some 2⟩
      (by decide) (by decide) (by decide)).1

theorem count_map_text (w : String) (l : List Task) :
    (l.map (fun t => t.text)).count w =
      (l.filter (fun u => decide (u.text = w))).length := by
  induction l with
  | nil => rfl
  | cons u rest ih =>
    by_cases h : u.text = w
    · simp [List.count_cons, h, ih]
    · simp [List.count_cons, h, ih]

theorem count_filter_of_pos (w : String) (p : String → Bool) (hp : p w = true)
    (l : List String) : (l.filter p).count w = l.count w := by
  induction l with
  | nil => rfl
  | cons x rest ih =>
    by_cases h : x = w
    · subst h
      simp [List.filter_cons, hp, List.count_cons, ih]
    · by_cases hx : p x = true
      · simp [List.filter_cons, hx, List.count_cons, h, ih]
      · simp [List.filter_cons, hx, List.count_cons, h, ih]

theorem filter_low_keeps_w (w : String) (l : List Task)
    (h : ∀ u ∈ l, u.text = w → new_count u < 3) :
    (l.filter (fun u => !(decide (3 ≤ new_count u)))).filter
        (fun u => decide (u.text = w)) =
      l.filter (fun u => decide (u.text = w)) := by
  induction l with
  | nil => rfl
  | cons u rest ih =>
    have hrest := ih (fun v hv => h v (List.mem_cons_of_mem _ hv))
    by_cases hw : u.text = w
    · have hlow : new_count u < 3 := h u (List.mem_cons_self _ _) hw
      have hb : (!(decide (3 ≤ new_count u))) = true := by
        simp
        omega
      simp [List.filter_cons, hb, hw, hrest]
    · by_cases hb : (!(decide (3 ≤ new_count u))) = true
      · simp [List.filter_cons, hb, hw, hrest]
      · simp [List.filter_cons, hb, hw, hrest]

/-- C10: the duplicate-skip check of the carry-forward merge consults only
tomorrow's pre-existing texts and is not updated as carried tasks are
inserted: when today's not-done tasks contain exactly two with the same text
`w`, each with incremented carry count below 3, and tomorrow's pre-existing
list does not contain `w`, then after the close tomorrow's task list contains
`w` exactly twice. -/
theorem C10_duplicate_carry_insertion (now day tmr w : String) (s : UserState)
    (day_obj : Day) (hne : day ≠ tmr)
    (hcount : ((todo_of (seeded_tasks now day_obj)).filter
        (fun u => decide (u.text = w))).length = 2)
    (hlow : ∀ u ∈ todo_of (seeded_tasks now day_obj), u.text = w → new_count u < 3)
    (hnotin : w ∉ ((find_day s.days tmr).getD (fresh_day now)).tasks.map
        (fun t => t.text)) :
    ∃ tomAfter,
      find_day (build_evening_report now day tmr s day_obj).days tmr =
        some tomAfter ∧
      (tomAfter.tasks.map (fun t => t.text)).count w = 2 := by
  rw [build_evening_report_find_tmr now day tmr s day_obj hne]
  refine ⟨_, rfl, ?_⟩
  have hctext :
      ((close_loop now day (todo_of (seeded_tasks now day_obj)) s.backlog []).2).map
          (fun t => t.text) =
        ((todo_of (seeded_tasks now day_obj)).filter
            (fun t => !(decide (3 ≤ new_count t)))).map (fun t => t.text) := by
    rw [close_loop_carry]
    simp [mk_carry_task]
  have httexts :
      (force_open ((find_day s.days tmr).getD (fresh_day now))).tasks.map
          (fun t => t.text) =
        ((find_day s.days tmr).getD (fresh_day now)).tasks.map (fun t => t.text) := by
    rw [force_open_tasks]
  obtain ⟨added, htexts, hadded, _⟩ :=
    merge_tomorrow_spec now
      ((close_loop now day (todo_of (seeded_tasks now day_obj)) s.backlog []).2)
      (force_open ((find_day s.days tmr).getD (fresh_day now)))
  rw [hctext, httexts] at htexts hadded
  rw [htexts]
  have hcontains :
      (((find_day s.days tmr).getD (fresh_day now)).tasks.map
        (fun t => t.text)).contains w = false := by
    cases hc : (((find_day s.days tmr).getD (fresh_day now)).tasks.map
        (fun t => t.text)).contains w with
    | false => rfl
    | true => exact absurd (by simpa using hc) hnotin
  have hcountF :
      ((((todo_of (seeded_tasks now day_obj)).filter
          (fun t => !(decide (3 ≤ new_count t)))).map (fun t => t.text)).filter
        (fun x => !((((find_day s.days tmr).getD (fresh_day now)).tasks.map
            (fun t => t.text)).contains x))).count w = 2 := by
    rw [count_filter_of_pos w _ (by rw [hcontains]; rfl)]
    rw [count_map_text, filter_low_keeps_w w _ hlow]
    exact hcount
  have hcountM :
      ((((find_day s.days tmr).getD (fresh_day now)).tasks.map
        (fun t => t.text))).count w = 0 :=
    List.count_eq_zero.mpr hnotin
  have hcountA : added.count w = 0 := by
    refine List.count_eq_zero.mpr ?_
    intro hwadded
    obtain ⟨_, hnot⟩ := hadded w hwadded
    refine hnot (List.mem_append_left _ ?_)
    have : 0 < ((((todo_of (seeded_tasks now day_obj)).filter
        (fun t => !(decide (3 ≤ new_count t)))).map (fun t => t.text)).filter
      (fun x => !((((find_day s.days tmr).getD (fresh_day now)).tasks.map
          (fun t => t.text)).contains x))).count w := by
      rw [hcountF]; omega
    exact List.count_pos_iff.mp this
  rw [List.count_append, List.count_append, hcountF, hcountM, hcountA]

/-- Witness for C10: a day with two identical todo tasks "w" and no
pre-existing tomorrow. -/
theorem C10_witness :
    ∃ tomAfter,
      find_day (build_evening_report "n" "d1" "d2"
        ⟨[("d1", ⟨[⟨1, "w", "todo", "t0", none, none, none⟩,
                   ⟨2, "w", "todo", "t1", none, none, none⟩], false, "t0", none⟩)],
         [], [], []⟩
        ⟨[⟨1, "w", "todo", "t0", none, none, none⟩,
          ⟨2, "w", "todo", "t1", none, none, none⟩], false, "t0", none⟩).days "d2" =
        some tomAfter ∧
      (tomAfter.tasks.map (fun t => t.text)).count "w" = 2 :=
  C10_duplicate_carry_insertion "n" "d1" "d2" "w"
    ⟨[("d1", ⟨[⟨1, "w", "todo", "t0", none, none, none⟩,
               ⟨2, "w", "todo", "t1", none, none, none⟩], false, "t0", none⟩)],
     [], [], []⟩
    ⟨[⟨1, "w", "todo", "t0", none, none, none⟩,
      ⟨2, "w", "todo", "t1", none, none, none⟩], false, "t0", none⟩
    (by decide) (by decide) (by decide) (by decide)

end Planner
